import Mathlib

/-!
# Verification of the assistant-conversation service

Shallow embedding of the tree-structured CRUD logic of the repository's two
FastAPI revisions:

* `server.py` (API version 2.0.0): self-referencing `sujet` and `action`
  tables, bulk recursive action insertion (`POST /actions/bulk`) and the
  adjacency-list forest readers (`GET /actions/tree`, `GET /sujets/tree`).
* `db.py` (API version 1.7.0 plus the `/v2` endpoints on a second database):
  conversation persistence with optional base64 image, idempotent
  `POST /sujets`, and the recursive `/v2` sujet/action tree writers/readers.

SQL tables are embedded as Lean lists of row structures carried inside a
store structure together with the serial-id counters; `INSERT ... RETURNING
id` appends a row and bumps the counter, `SELECT ... ORDER BY id` is a
filter over the row list (stores built by these operations keep their rows
in ascending-id order).  HTTP failures (`HTTPException`) are an `Except`
error carrying the status code and detail string.  A possible mid-request
database failure (needed for the transactional-rollback claims) is embedded
as an oracle predicate on the id a row insert would receive: the insert
raises exactly when the oracle is true for that id.
-/

namespace AssistantConversation

/-- HTTP error as raised by `HTTPException(status_code=..., detail=...)`. -/
structure Err where
  status : Nat
  detail : String
  deriving Repr, DecidableEq

/-- The closed action-status set, `Status = Literal["nouvelle", "en_cours",
"bloquee", "terminee", "annulee"]` (both `server.py` line 68 and `db.py`
lines 96/217). -/
inductive Status where
  | nouvelle | en_cours | bloquee | terminee | annulee
  deriving Repr, DecidableEq

/-- The serialized form of a `Status` value, as it appears in JSON and as the
2.0.0 revision stores it in the `action.status` column. -/
def Status.toDb : Status → String
  | .nouvelle => "nouvelle"
  | .en_cours => "en_cours"
  | .bloquee => "bloquee"
  | .terminee => "terminee"
  | .annulee => "annulee"

/-- The closed set of status strings admitted by the `Status` literal type at
the API boundary. -/
def statusClosedSet : List String :=
  ["nouvelle", "en_cours", "bloquee", "terminee", "annulee"]

/-- `STATUS_MAP_APP_TO_DB` (db.py lines 244-250): mapping from the app-level
status labels to the labels of the second database's CHECK constraint. -/
def STATUS_MAP_APP_TO_DB : Status → String
  | .nouvelle => "nouveau"
  | .en_cours => "en_cours"
  | .bloquee => "bloque"
  | .terminee => "termine"
  | .annulee => "termine"

/-- `(x or None)` on an optional string in Python: an empty string is falsy
and collapses to `None`. -/
def orNone : Option String → Option String
  | none => none
  | some s => if s.isEmpty then none else some s

/-- Python's `str.strip()` with no argument: drop leading and trailing
whitespace (modelled over the ASCII whitespace characters recognised by
`Char.isWhitespace`). -/
def pyStrip (s : String) : String :=
  ⟨((s.data.dropWhile Char.isWhitespace).reverse.dropWhile Char.isWhitespace).reverse⟩

/-! ## server.py (API version 2.0.0): data model

One row structure per SQL table.  `id` columns are Postgres serials: the
store carries the next value of each sequence, and an
`INSERT ... RETURNING id` appends a row bearing that value and bumps the
counter.  Timestamps (`now()` / `datetime.utcnow()`) are modelled by a
logical clock `now : Nat` in the store, bumped on every write. -/

/-- A row of the 2.0.0 `conversations` table. -/
structure ConvRow where
  id : Nat
  user_name : String
  conversation : String
  date_conversation : Nat
  deriving Repr, DecidableEq

/-- A row of the 2.0.0 self-referencing `sujet` table. -/
structure SujetRow where
  id : Nat
  conversation_id : Nat
  sujet : String
  parent_id : Option Nat
  created_at : Nat
  deriving Repr, DecidableEq

/-- A row of the 2.0.0 self-referencing `action` table.  The `status` column
only ever receives values of the validated `Status` payload type, so it is
typed as `Status` here; reads serialize it back with `Status.toDb`. -/
structure ActionRow where
  id : Nat
  sujet_id : Nat
  task : String
  responsible : String
  due_date : String
  status : Status
  product_line : Option String
  plant_site : Option String
  parent_action_id : Option Nat
  deriving Repr, DecidableEq

/-- The 2.0.0 database.  Rows are appended in id order, so the row lists of
stores reachable through the operations below are ascending in `id`; the
`ORDER BY id ASC` reads are therefore embedded as plain filters, and the
theorems that depend on the ordering carry it as an explicit hypothesis. -/
structure StoreV2 where
  conversations : List ConvRow
  sujets : List SujetRow
  actions : List ActionRow
  nextConvId : Nat
  nextSujetId : Nat
  nextActionId : Nat
  now : Nat
  deriving Repr, DecidableEq

/-! ### server.py payload / response models -/

/-- `SujetIn` (server.py lines 37-40). -/
structure SujetIn where
  conversation_id : Nat
  sujet : String
  parent_id : Option Nat
  deriving Repr, DecidableEq

/-- `SujetOut` (server.py lines 42-47). -/
structure SujetOut where
  id : Nat
  conversation_id : Nat
  sujet : String
  parent_id : Option Nat
  created_at : Nat
  deriving Repr, DecidableEq

/-- `ActionNodeIn` (server.py lines 70-78). -/
structure ActionNodeIn where
  sujet_id : Nat
  task : String
  responsible : String
  due_date : String
  status : Status
  product_line : Option String
  plant_site : Option String
  parent_action_id : Option Nat
  deriving Repr, DecidableEq

/-- `ActionOut` (server.py lines 80-89). -/
structure ActionOut where
  id : Nat
  sujet_id : Nat
  task : String
  responsible : String
  due_date : String
  status : String
  product_line : Option String
  plant_site : Option String
  parent_action_id : Option Nat
  deriving Repr, DecidableEq

/-- `ActionTreeIn` (server.py lines 108-116): one node of the nested bulk
payload, `children` an optional list exactly as in the pydantic model. -/
inductive ActionTreeIn where
  | mk (task responsible due_date : String) (status : Status)
       (product_line plant_site : Option String)
       (children : Option (List ActionTreeIn))
  deriving Repr

/-- `ActionsBulkIn` (server.py lines 118-120). -/
structure ActionsBulkIn where
  sujet_id : Nat
  items : List ActionTreeIn
  deriving Repr

/-- `ActionTreeOutNode` (server.py lines 122-125): the id-only response tree
of `POST /actions/bulk`. -/
inductive ActionTreeOutNode where
  | mk (id : Nat) (children : Option (List ActionTreeOutNode))
  deriving Repr

/-- `ActionsBulkOut` (server.py lines 127-129). -/
structure ActionsBulkOut where
  sujet_id : Nat
  created : List ActionTreeOutNode
  deriving Repr

/-- `ActionTreeItem` (server.py lines 91-101): one node of the
`GET /actions/tree` response. -/
inductive ActionTreeItem where
  | mk (id sujet_id : Nat) (task responsible due_date status : String)
       (product_line plant_site : Option String)
       (children : Option (List ActionTreeItem))
  deriving Repr

/-- `ActionsTreeOut` (server.py lines 103-105). -/
structure ActionsTreeOut where
  sujet_id : Nat
  items : List ActionTreeItem
  deriving Repr

/-- `SujetTreeNode` (server.py lines 55-59). -/
inductive SujetTreeNode where
  | mk (id : Nat) (sujet : String) (children : Option (List SujetTreeNode))
  deriving Repr

/-- `SujetTreeOut` (server.py lines 61-63). -/
structure SujetTreeOut where
  root_id : Nat
  tree : SujetTreeNode
  deriving Repr

def ActionTreeOutNode.id : ActionTreeOutNode → Nat
  | .mk i _ => i

def ActionTreeOutNode.children : ActionTreeOutNode → Option (List ActionTreeOutNode)
  | .mk _ c => c

def ActionTreeItem.id : ActionTreeItem → Nat
  | .mk i _ _ _ _ _ _ _ _ => i

def ActionTreeItem.status : ActionTreeItem → String
  | .mk _ _ _ _ _ s _ _ _ => s

def ActionTreeItem.children : ActionTreeItem → Option (List ActionTreeItem)
  | .mk _ _ _ _ _ _ _ _ c => c

def SujetTreeNode.id : SujetTreeNode → Nat
  | .mk i _ _ => i

def SujetTreeNode.children : SujetTreeNode → Option (List SujetTreeNode)
  | .mk _ _ c => c

/-! ### server.py write endpoints -/

/-- `ConversationIn` (server.py lines 13-16). -/
structure ConversationIn where
  user_name : String
  conversation : String
  date_conversation : Option Nat
  deriving Repr, DecidableEq

/-- `ConversationOut` (server.py lines 18-20). -/
structure ConversationOut where
  id : Nat
  status : String
  deriving Repr, DecidableEq

/-- `ConversationDetail` (server.py lines 28-32). -/
structure ConversationDetail where
  id : Nat
  user_name : String
  date_conversation : Nat
  conversation : String
  deriving Repr, DecidableEq

/-- `POST /save-conversation` of server.py (lines 141-162): inserts
`(user_name.strip(), conversation, date)` and returns the new id.
`str.strip` is embedded as `pyStrip`. -/
def save_conversation (st : StoreV2) (payload : ConversationIn) :
    Except Err ConversationOut × StoreV2 :=
  let date_conv := payload.date_conversation.getD st.now
  let row : ConvRow :=
    { id := st.nextConvId
      user_name := pyStrip payload.user_name
      conversation := payload.conversation
      date_conversation := date_conv }
  (Except.ok { id := st.nextConvId, status := "ok" },
   { st with conversations := st.conversations ++ [row],
             nextConvId := st.nextConvId + 1, now := st.now + 1 })

/-- `GET /conversations/{id}` of server.py (lines 216-238). -/
def get_conversation_by_id (st : StoreV2) (id : Nat) : Except Err ConversationDetail :=
  match st.conversations.find? (fun r => r.id == id) with
  | none => Except.error ⟨404, "Conversation not found"⟩
  | some r => Except.ok ⟨r.id, r.user_name, r.date_conversation, r.conversation⟩

/-- `POST /sujets` of server.py (lines 266-303).  Checks that the
conversation exists, then — only when `parent_id` is truthy — that the
parent subject exists and belongs to the same conversation, then inserts
unconditionally (this revision has no duplicate-label check). -/
def create_sujet (st : StoreV2) (payload : SujetIn) : Except Err SujetOut × StoreV2 :=
  if (st.conversations.find? (fun c => c.id == payload.conversation_id)).isNone then
    (Except.error ⟨404, "Conversation not found"⟩, st)
  else
    let parentCheck : Option Err :=
      match payload.parent_id with
      | none => none
      | some pid =>
        if pid == 0 then none  -- Python truthiness; unreachable through the API (Field ge=1)
        else
          match st.sujets.find? (fun s => s.id == pid) with
          | none => some ⟨404, "Parent subject not found"⟩
          | some row =>
            if row.conversation_id ≠ payload.conversation_id then
              some ⟨400, "Parent subject belongs to a different conversation"⟩
            else none
    match parentCheck with
    | some e => (Except.error e, st)
    | none =>
      let r : SujetRow :=
        { id := st.nextSujetId, conversation_id := payload.conversation_id,
          sujet := payload.sujet, parent_id := payload.parent_id, created_at := st.now }
      (Except.ok ⟨r.id, r.conversation_id, r.sujet, r.parent_id, r.created_at⟩,
       { st with sujets := st.sujets ++ [r], nextSujetId := st.nextSujetId + 1,
                 now := st.now + 1 })

/-- `POST /actions` of server.py (lines 414-451).  Checks that the sujet
exists, then — only when `parent_action_id` is truthy — that the parent
action exists and belongs to the same sujet, then inserts. -/
def create_action (st : StoreV2) (payload : ActionNodeIn) : Except Err ActionOut × StoreV2 :=
  if (st.sujets.find? (fun s => s.id == payload.sujet_id)).isNone then
    (Except.error ⟨404, "Sujet not found"⟩, st)
  else
    let parentCheck : Option Err :=
      match payload.parent_action_id with
      | none => none
      | some pid =>
        if pid == 0 then none  -- Python truthiness; unreachable through the API (Field ge=1)
        else
          match st.actions.find? (fun a => a.id == pid) with
          | none => some ⟨404, "Parent action not found"⟩
          | some row =>
            if row.sujet_id ≠ payload.sujet_id then
              some ⟨400, "Parent action belongs to a different sujet"⟩
            else none
    match parentCheck with
    | some e => (Except.error e, st)
    | none =>
      let r : ActionRow :=
        { id := st.nextActionId, sujet_id := payload.sujet_id, task := payload.task,
          responsible := payload.responsible, due_date := payload.due_date,
          status := payload.status, product_line := payload.product_line,
          plant_site := payload.plant_site, parent_action_id := payload.parent_action_id }
      (Except.ok ⟨r.id, r.sujet_id, r.task, r.responsible, r.due_date, r.status.toDb,
                  r.product_line, r.plant_site, r.parent_action_id⟩,
       { st with actions := st.actions ++ [r], nextActionId := st.nextActionId + 1,
                 now := st.now + 1 })

/-! ### server.py `POST /actions/bulk` — the Recursive Inserter

`insert_node` (server.py lines 467-478) inserts a row for the node, then
recursively inserts its children with the freshly assigned id as parent.
A database failure of any single `INSERT` is embedded via the oracle
`fail : Nat → Bool`, consulted on the id the insert would return; a failure
raises, the handler's inner `except` (lines 485-487) rolls the transaction
back and re-raises, and the outer handler maps it to HTTP 500. -/

mutual

def insert_node (fail : Nat → Bool) (sujet_id : Nat) (node : ActionTreeIn)
    (parent_id : Option Nat) (st : StoreV2) :
    Except Err (ActionTreeOutNode × StoreV2) :=
  match node with
  | .mk task responsible due_date status product_line plant_site children =>
    let new_id := st.nextActionId
    if fail new_id then Except.error ⟨500, "Insertion failed: db"⟩
    else
      let row : ActionRow :=
        { id := new_id, sujet_id := sujet_id, task := task, responsible := responsible,
          due_date := due_date, status := status, product_line := product_line,
          plant_site := plant_site, parent_action_id := parent_id }
      let st1 : StoreV2 :=
        { st with actions := st.actions ++ [row], nextActionId := new_id + 1 }
      match children with   -- `if node.children:` — None and [] both skip the loop
      | none => Except.ok (.mk new_id none, st1)
      | some cs =>
        if cs.isEmpty then Except.ok (.mk new_id none, st1)
        else do
          let (children_out, st2) ← insert_children fail sujet_id cs new_id st1
          Except.ok (.mk new_id (if children_out.isEmpty then none else some children_out), st2)

def insert_children (fail : Nat → Bool) (sujet_id : Nat) (cs : List ActionTreeIn)
    (parent : Nat) (st : StoreV2) :
    Except Err (List ActionTreeOutNode × StoreV2) :=
  match cs with
  | [] => Except.ok ([], st)
  | c :: rest => do
    let (o, st1) ← insert_node fail sujet_id c (some parent) st
    let (os, st2) ← insert_children fail sujet_id rest parent st1
    Except.ok (o :: os, st2)

end

/-- The `for root in payload.items` loop of `create_actions_bulk`
(server.py lines 482-483): roots are inserted in order with `parent_id =
None`. -/
def insert_roots (fail : Nat → Bool) (sujet_id : Nat) (items : List ActionTreeIn)
    (st : StoreV2) : Except Err (List ActionTreeOutNode × StoreV2) :=
  match items with
  | [] => Except.ok ([], st)
  | root :: rest => do
    let (o, st1) ← insert_node fail sujet_id root none st
    let (os, st2) ← insert_roots fail sujet_id rest st1
    Except.ok (o :: os, st2)

/-- `POST /actions/bulk` of server.py (lines 453-494).  Validates the sujet
(404 before any insert), inserts the whole forest inside one transaction;
on any failure the transaction is rolled back — the returned store is the
original — and the outer handler answers 500. -/
def create_actions_bulk (fail : Nat → Bool) (st : StoreV2) (payload : ActionsBulkIn) :
    Except Err ActionsBulkOut × StoreV2 :=
  if (st.sujets.find? (fun s => s.id == payload.sujet_id)).isNone then
    (Except.error ⟨404, "Sujet not found"⟩, st)
  else
    match insert_roots fail payload.sujet_id payload.items st with
    | Except.error e => (Except.error e, st)   -- conn.rollback(); raise → HTTP 500
    | Except.ok (created, st') =>              -- conn.commit()
      (Except.ok ⟨payload.sujet_id, created⟩, st')

/-! ### server.py Tree Builder (read path)

`GET /actions/tree` (lines 496-544) loads all rows of a sujet in ascending
id order, links each node whose truthy `parent_action_id` resolves within
the loaded map under that parent, and treats every other node as a root.
The dict-based two-pass construction is embedded as a fuel-indexed
recursion (`fuel = number of loaded rows` bounds the depth of any forest
reachable from a root). -/

/-- The rows attached as children of node `pid` by the loop at server.py
lines 526-531, in load order: rows whose `parent_action_id` is truthy and
equal to `pid`. -/
def actionChildRows (rows : List ActionRow) (pid : Nat) : List ActionRow :=
  rows.filter fun r =>
    match r.parent_action_id with
    | some p => !(p == 0) && p == pid
    | none => false

/-- Whether the loop at server.py lines 526-531 makes row `r` a root:
`parent_action_id` null, zero, or not resolving among the loaded ids. -/
def actionIsRoot (rows : List ActionRow) (r : ActionRow) : Bool :=
  match r.parent_action_id with
  | none => true
  | some p => p == 0 || !((rows.map ActionRow.id).contains p)

/-- `to_model` (server.py lines 533-538) over the linked node map: children
are rendered in load order and an empty children list becomes `None`. -/
def buildActionItem (rows : List ActionRow) : Nat → ActionRow → ActionTreeItem
  | 0, r =>
    .mk r.id r.sujet_id r.task r.responsible r.due_date r.status.toDb
        r.product_line r.plant_site none
  | fuel + 1, r =>
    let cs := (actionChildRows rows r.id).map (buildActionItem rows fuel)
    .mk r.id r.sujet_id r.task r.responsible r.due_date r.status.toDb
        r.product_line r.plant_site (if cs.isEmpty then none else some cs)

/-- `GET /actions/tree` of server.py (lines 496-544). -/
def list_actions_tree_by_sujet (st : StoreV2) (sujet_id : Nat) :
    Except Err ActionsTreeOut :=
  if (st.sujets.find? (fun s => s.id == sujet_id)).isNone then
    Except.error ⟨404, "Sujet not found"⟩
  else
    let rows := st.actions.filter (fun r => r.sujet_id == sujet_id)
    Except.ok ⟨sujet_id,
      (rows.filter (actionIsRoot rows)).map (buildActionItem rows rows.length)⟩

/-- Children attached to sujet node `pid` by the loop at server.py
lines 392-395. -/
def sujetChildRows (rows : List SujetRow) (pid : Nat) : List SujetRow :=
  rows.filter fun r =>
    match r.parent_id with
    | some p => !(p == 0) && p == pid
    | none => false

/-- `to_model` (server.py lines 398-403). -/
def buildSujetNode (rows : List SujetRow) : Nat → SujetRow → SujetTreeNode
  | 0, r => .mk r.id r.sujet none
  | fuel + 1, r =>
    let cs := (sujetChildRows rows r.id).map (buildSujetNode rows fuel)
    .mk r.id r.sujet (if cs.isEmpty then none else some cs)

/-- `GET /sujets/tree` of server.py (lines 362-409): loads every sujet of
the root's conversation, links children, and returns only the subtree
rooted at `root_id`. -/
def get_sujet_tree (st : StoreV2) (root_id : Nat) : Except Err SujetTreeOut :=
  match st.sujets.find? (fun s => s.id == root_id) with
  | none => Except.error ⟨404, "Sujet not found"⟩
  | some rootRow =>
    let rows := st.sujets.filter (fun r => r.conversation_id == rootRow.conversation_id)
    Except.ok ⟨root_id, buildSujetNode rows rows.length rootRow⟩

/-! ## db.py (API version 1.7.0): data model

This file is a second FastAPI revision: a flat `conversations` table with
optional image columns, a flat `sujet` / `sous_sujet` / `action` /
`sous_action` / `sous_sous_action` hierarchy, and — on a second database
reached through `get_connection_1` — the recursive `/v2` sujet and action
trees (modelled further below as `StoreDb2`). -/

/-- A row of the 1.7.0 `conversations` table.  `image_data` (BYTEA) is a
byte list. -/
structure ConvRow17 where
  id : Nat
  user_name : String
  conversation : String
  date_conversation : Nat
  image_data : Option (List Nat)
  image_mime : Option String
  image_filename : Option String
  deriving Repr, DecidableEq

/-- A row of the 1.7.0 flat `sujet` table (no parent column). -/
structure Sujet17Row where
  id : Nat
  conversation_id : Nat
  sujet : String
  created_at : Nat
  deriving Repr, DecidableEq

/-- A row of the 1.7.0 `sous_sujet` table. -/
structure SousSujetRow where
  id : Nat
  sujet_id : Nat
  titre : String
  created_at : Nat
  deriving Repr, DecidableEq

/-- A row of the 1.7.0 `action` table (scope column `id_sous_sujet`). -/
structure Action17Row where
  id : Nat
  id_sous_sujet : Nat
  task : String
  responsible : String
  due_date : String
  status : Status
  product_line : Option String
  plant_site : Option String
  deriving Repr, DecidableEq

/-- A row of the 1.7.0 `sous_action` table. -/
structure SousActionRow where
  id : Nat
  action_id : Nat
  task : String
  responsible : String
  due_date : String
  status : Status
  product_line : Option String
  plant_site : Option String
  deriving Repr, DecidableEq

/-- A row of the 1.7.0 `sous_sous_action` table. -/
structure SousSousActionRow where
  id : Nat
  sous_action_id : Nat
  task : String
  responsible : String
  due_date : String
  status : Status
  product_line : Option String
  plant_site : Option String
  deriving Repr, DecidableEq

/-- The 1.7.0 primary database. -/
structure Store17 where
  conversations : List ConvRow17
  sujets : List Sujet17Row
  sous_sujets : List SousSujetRow
  actions : List Action17Row
  sous_actions : List SousActionRow
  sous_sous_actions : List SousSousActionRow
  nextConvId : Nat
  nextSujetId : Nat
  nextSousSujetId : Nat
  nextActionId : Nat
  nextSousActionId : Nat
  nextSousSousActionId : Nat
  now : Nat
  deriving Repr, DecidableEq

/-- `ConversationIn` of db.py (lines 16-35).  The optional base64 image is
carried as its decoded byte list: `base64.b64decode(..., validate=True)` on
a valid payload is embedded as the identity on those bytes (the 422 path
for malformed base64 is outside the claims below).  Python's truthiness
test `if payload.image_base64:` treats the empty string — which decodes to
zero bytes — as absent. -/
structure ConversationIn17 where
  user_name : String
  conversation : String
  date_conversation : Option Nat
  image_base64 : Option (List Nat)
  image_mime : Option String
  image_filename : Option String
  deriving Repr, DecidableEq

/-- `ConversationDetail` of db.py (lines 47-55). -/
structure ConversationDetail17 where
  id : Nat
  user_name : String
  date_conversation : Nat
  conversation : String
  has_image : Bool
  image_mime : Option String
  image_filename : Option String
  deriving Repr, DecidableEq

/-- The decoded image carried into the insert: `if payload.image_base64:`
treats the empty string (empty decode) as absent. -/
def imageBytesOf (payload : ConversationIn17) : Option (List Nat) :=
  match payload.image_base64 with
  | some bs => if bs.isEmpty then none else some bs
  | none => none

/-- `POST /save-conversation` of db.py (lines 255-300): decodes the image if
present, rejects it with 413 when the decoded size exceeds 10 MB — before
the `INSERT` is issued — and otherwise inserts the row with the stripped
`user_name` and the conversation text exactly as supplied. -/
def save_conversation17 (st : Store17) (payload : ConversationIn17) :
    Except Err ConversationOut × Store17 :=
  let date_conv := payload.date_conversation.getD st.now
  let image_bytes := imageBytesOf payload
  let tooLarge :=
    match image_bytes with
    | some bs => decide (bs.length > 10 * 1024 * 1024)
    | none => false
  if tooLarge then
    (Except.error ⟨413, "Image too large (max 10 MB)"⟩, st)
  else
    let row : ConvRow17 :=
      { id := st.nextConvId
        user_name := pyStrip payload.user_name
        conversation := payload.conversation
        date_conversation := date_conv
        image_data := image_bytes
        image_mime := orNone payload.image_mime
        image_filename := orNone payload.image_filename }
    (Except.ok { id := st.nextConvId, status := "ok" },
     { st with conversations := st.conversations ++ [row],
               nextConvId := st.nextConvId + 1, now := st.now + 1 })

/-- `GET /conversations/{id}` of db.py (lines 348-378). -/
def get_conversation_by_id17 (st : Store17) (id : Nat) : Except Err ConversationDetail17 :=
  match st.conversations.find? (fun r => r.id == id) with
  | none => Except.error ⟨404, "Conversation not found"⟩
  | some r =>
    Except.ok ⟨r.id, r.user_name, r.date_conversation, r.conversation,
               r.image_data.isSome, r.image_mime, r.image_filename⟩

/-- `SujetIn` of db.py (lines 60-62). -/
structure SujetIn17 where
  conversation_id : Nat
  sujet : String
  deriving Repr, DecidableEq

/-- `SujetOut` of db.py (lines 64-68). -/
structure SujetOut17 where
  id : Nat
  conversation_id : Nat
  sujet : String
  created_at : Nat
  deriving Repr, DecidableEq

/-- `POST /sujets` of db.py (lines 441-481): checks the conversation, then
looks for an existing row with the same `(conversation_id, sujet)` pair and
returns it without inserting; only when none exists is a new row
inserted. -/
def create_sujet17 (st : Store17) (payload : SujetIn17) : Except Err SujetOut17 × Store17 :=
  if (st.conversations.find? (fun c => c.id == payload.conversation_id)).isNone then
    (Except.error ⟨404, "Conversation not found"⟩, st)
  else
    match st.sujets.find? (fun s =>
        s.conversation_id == payload.conversation_id && s.sujet == payload.sujet) with
    | some existing =>
      -- re-select the full row by id (db.py line 461)
      match st.sujets.find? (fun s => s.id == existing.id) with
      | none => (Except.error ⟨500, "Insertion failed: row vanished"⟩, st)
      | some s => (Except.ok ⟨s.id, s.conversation_id, s.sujet, s.created_at⟩, st)
    | none =>
      let r : Sujet17Row :=
        { id := st.nextSujetId, conversation_id := payload.conversation_id,
          sujet := payload.sujet, created_at := st.now }
      (Except.ok ⟨r.id, r.conversation_id, r.sujet, r.created_at⟩,
       { st with sujets := st.sujets ++ [r], nextSujetId := st.nextSujetId + 1,
                 now := st.now + 1 })

/-! ### db.py `POST /actions/bulk` — fixed three-level bulk insert
(lines 630-697).  Each `INSERT` may fail (oracle on the id it would
return); the whole request runs in one transaction with an explicit
rollback on any exception. -/

/-- `SousSousActionNodeIn` (db.py lines 98-104). -/
structure SousSousActionNodeIn where
  task : String
  responsible : String
  due_date : String
  status : Status
  product_line : Option String
  plant_site : Option String
  deriving Repr, DecidableEq

/-- `SousActionNodeIn` (db.py lines 106-113). -/
structure SousActionNodeIn where
  task : String
  responsible : String
  due_date : String
  status : Status
  product_line : Option String
  plant_site : Option String
  sous_sous_actions : Option (List SousSousActionNodeIn)
  deriving Repr, DecidableEq

/-- `ActionNodeIn` of db.py (lines 115-122). -/
structure ActionNodeIn17 where
  task : String
  responsible : String
  due_date : String
  status : Status
  product_line : Option String
  plant_site : Option String
  sous_actions : Option (List SousActionNodeIn)
  deriving Repr, DecidableEq

/-- `ActionsBulkIn` of db.py (lines 125-127). -/
structure ActionsBulkIn17 where
  sous_sujet_id : Nat
  actions : List ActionNodeIn17
  deriving Repr, DecidableEq

/-- `SousSousActionNodeOut` (db.py lines 129-130). -/
structure SousSousActionNodeOut where
  sous_sous_action_id : Nat
  deriving Repr, DecidableEq

/-- `SousActionNodeOut` (db.py lines 132-134). -/
structure SousActionNodeOut where
  sous_action_id : Nat
  sous_sous_actions : Option (List SousSousActionNodeOut)
  deriving Repr, DecidableEq

/-- `ActionNodeOut` (db.py lines 136-138). -/
structure ActionNodeOut where
  action_id : Nat
  sous_actions : Option (List SousActionNodeOut)
  deriving Repr, DecidableEq

/-- `ActionsBulkOut` of db.py (lines 140-143). -/
structure ActionsBulkOut17 where
  sujet_id : Nat
  created : List ActionNodeOut
  deriving Repr, DecidableEq

/-- Innermost loop of db.py `create_actions_bulk` (lines 671-681):
insert the `sous_sous_action` rows of one `sous_action`. -/
def insertSousSousActions (fail : Nat → Bool) (sous_action_id : Nat)
    (ssas : List SousSousActionNodeIn) (st : Store17) :
    Except Err (List SousSousActionNodeOut × Store17) :=
  match ssas with
  | [] => Except.ok ([], st)
  | ssa :: rest =>
    let nid := st.nextSousSousActionId
    if fail nid then Except.error ⟨500, "Insertion failed: db"⟩
    else
      let row : SousSousActionRow :=
        { id := nid, sous_action_id := sous_action_id, task := ssa.task,
          responsible := ssa.responsible, due_date := ssa.due_date, status := ssa.status,
          product_line := ssa.product_line, plant_site := ssa.plant_site }
      let st1 := { st with sous_sous_actions := st.sous_sous_actions ++ [row],
                           nextSousSousActionId := nid + 1 }
      do
        let (os, st2) ← insertSousSousActions fail sous_action_id rest st1
        Except.ok (⟨nid⟩ :: os, st2)

/-- Middle loop of db.py `create_actions_bulk` (lines 658-683): insert the
`sous_action` rows of one `action`, each with its nested
`sous_sous_actions` (`or None` collapses an empty result list). -/
def insertSousActions (fail : Nat → Bool) (action_id : Nat)
    (sas : List SousActionNodeIn) (st : Store17) :
    Except Err (List SousActionNodeOut × Store17) :=
  match sas with
  | [] => Except.ok ([], st)
  | sa :: rest =>
    let nid := st.nextSousActionId
    if fail nid then Except.error ⟨500, "Insertion failed: db"⟩
    else
      let row : SousActionRow :=
        { id := nid, action_id := action_id, task := sa.task,
          responsible := sa.responsible, due_date := sa.due_date, status := sa.status,
          product_line := sa.product_line, plant_site := sa.plant_site }
      let st1 := { st with sous_actions := st.sous_actions ++ [row],
                           nextSousActionId := nid + 1 }
      do
        let (ssa_out, st2) ← insertSousSousActions fail nid (sa.sous_sous_actions.getD []) st1
        let (os, st3) ← insertSousActions fail action_id rest st2
        Except.ok (⟨nid, if ssa_out.isEmpty then none else some ssa_out⟩ :: os, st3)

/-- Outer loop of db.py `create_actions_bulk` (lines 645-685): insert each
`action` row under the sous-sujet with its nested levels. -/
def insertActions17 (fail : Nat → Bool) (sous_sujet_id : Nat)
    (as_ : List ActionNodeIn17) (st : Store17) :
    Except Err (List ActionNodeOut × Store17) :=
  match as_ with
  | [] => Except.ok ([], st)
  | a :: rest =>
    let nid := st.nextActionId
    if fail nid then Except.error ⟨500, "Insertion failed: db"⟩
    else
      let row : Action17Row :=
        { id := nid, id_sous_sujet := sous_sujet_id, task := a.task,
          responsible := a.responsible, due_date := a.due_date, status := a.status,
          product_line := a.product_line, plant_site := a.plant_site }
      let st1 := { st with actions := st.actions ++ [row], nextActionId := nid + 1 }
      do
        let (sa_out, st2) ← insertSousActions fail nid (a.sous_actions.getD []) st1
        let (os, st3) ← insertActions17 fail sous_sujet_id rest st2
        Except.ok (⟨nid, if sa_out.isEmpty then none else some sa_out⟩ :: os, st3)

/-- `POST /actions/bulk` of db.py (lines 630-697): 404 when the sous-sujet
does not exist (before any insert); otherwise all inserts run in one
transaction, rolled back entirely on any failure (lines 688-690), which the
outer handler maps to HTTP 500. -/
def create_actions_bulk17 (fail : Nat → Bool) (st : Store17) (payload : ActionsBulkIn17) :
    Except Err ActionsBulkOut17 × Store17 :=
  match st.sous_sujets.find? (fun ss => ss.id == payload.sous_sujet_id) with
  | none => (Except.error ⟨404, "Sous-sujet not found"⟩, st)
  | some ss =>
    match insertActions17 fail payload.sous_sujet_id payload.actions st with
    | Except.error e => (Except.error e, st)   -- conn.rollback(); raise → HTTP 500
    | Except.ok (created, st') => (Except.ok ⟨ss.sujet_id, created⟩, st')

/-! ### db.py fixed-depth tree readers -/

/-- `SousSousActionTreeItem` (db.py lines 145-152). -/
structure SousSousActionTreeItem where
  sous_sous_action_id : Nat
  task : String
  responsible : String
  due_date : String
  status : String
  product_line : Option String
  plant_site : Option String
  deriving Repr, DecidableEq

/-- `SousActionTreeItem` (db.py lines 154-162). -/
structure SousActionTreeItem where
  sous_action_id : Nat
  task : String
  responsible : String
  due_date : String
  status : String
  product_line : Option String
  plant_site : Option String
  sous_sous_actions : Option (List SousSousActionTreeItem)
  deriving Repr, DecidableEq

/-- `ActionTreeItem` of db.py (lines 164-172). -/
structure ActionTreeItem17 where
  action_id : Nat
  task : String
  responsible : String
  due_date : String
  status : String
  product_line : Option String
  plant_site : Option String
  sous_actions : Option (List SousActionTreeItem)
  deriving Repr, DecidableEq

/-- `SousSujetTreeItem` (db.py lines 180-183). -/
structure SousSujetTreeItem where
  sous_sujet_id : Nat
  titre : String
  actions : Option (List ActionTreeItem17)
  deriving Repr, DecidableEq

/-- `SujetTreeOut` of db.py (lines 185-187). -/
structure SujetTreeOut17 where
  sujet_id : Nat
  sous_sujets : List SousSujetTreeItem
  deriving Repr, DecidableEq

/-- `ActionsTreeOutResp` (db.py lines 702-704). -/
structure ActionsTreeOutResp where
  sujet_id : Nat
  actions : List ActionTreeItem17
  deriving Repr, DecidableEq

/-- The `sous_sous_action` items of one sous-action (db.py lines 750-771),
in ascending id order (`ORDER BY id ASC` over rows stored in id order). -/
def ssaItemsOf (st : Store17) (sid : Nat) : List SousSousActionTreeItem :=
  (st.sous_sous_actions.filter (fun r => r.sous_action_id == sid)).map fun r =>
    ⟨r.id, r.task, r.responsible, r.due_date, r.status.toDb, r.product_line, r.plant_site⟩

/-- The `sous_action` items of one action (db.py lines 736-784). -/
def saItemsOf (st : Store17) (aid : Nat) : List SousActionTreeItem :=
  (st.sous_actions.filter (fun r => r.action_id == aid)).map fun r =>
    let ssa := ssaItemsOf st r.id
    ⟨r.id, r.task, r.responsible, r.due_date, r.status.toDb, r.product_line, r.plant_site,
     if ssa.isEmpty then none else some ssa⟩

/-- The `action` items of one sous-sujet (db.py lines 722-797). -/
def actionItemsOf (st : Store17) (ssid : Nat) : List ActionTreeItem17 :=
  (st.actions.filter (fun r => r.id_sous_sujet == ssid)).map fun r =>
    let sa := saItemsOf st r.id
    ⟨r.id, r.task, r.responsible, r.due_date, r.status.toDb, r.product_line, r.plant_site,
     if sa.isEmpty then none else some sa⟩

/-- Legacy `GET /actions` of db.py (lines 706-804): flattens the actions of
every sous-sujet of the sujet, in ascending sous-sujet id order. -/
def list_actions_by_sujet (st : Store17) (sujet_id : Nat) : Except Err ActionsTreeOutResp :=
  if (st.sujets.find? (fun s => s.id == sujet_id)).isNone then
    Except.error ⟨404, "Sujet not found"⟩
  else
    let ss_ids := (st.sous_sujets.filter (fun ss => ss.sujet_id == sujet_id)).map (·.id)
    Except.ok ⟨sujet_id, ss_ids.flatMap (actionItemsOf st)⟩

/-- `GET /tree/sujet` of db.py (lines 809-915). -/
def get_full_tree_by_sujet (st : Store17) (sujet_id : Nat) : Except Err SujetTreeOut17 :=
  if (st.sujets.find? (fun s => s.id == sujet_id)).isNone then
    Except.error ⟨404, "Sujet not found"⟩
  else
    Except.ok ⟨sujet_id,
      (st.sous_sujets.filter (fun ss => ss.sujet_id == sujet_id)).map fun ss =>
        let acts := actionItemsOf st ss.id
        ⟨ss.id, ss.titre, if acts.isEmpty then none else some acts⟩⟩

/-! ## db.py `/v2` endpoints on the secondary database (`get_connection_1`)

Recursive self-referencing `sujet` and `action` tables.  These handlers run
inside `with conn, conn.cursor() as cur:` — psycopg2 commits the
transaction on normal exit and rolls it back when an exception escapes, so
a failure at any depth restores the store passed in. -/

/-- A row of the secondary database's `sujet` table. -/
structure SujetV2Row where
  id : Nat
  parent_sujet_id : Option Nat
  code : Option String
  titre : String
  description : Option String
  deriving Repr, DecidableEq

/-- A row of the secondary database's `action` table.  The `statut` column
is text under a CHECK constraint; it receives `STATUS_MAP_APP_TO_DB`
labels, so it is typed as `String`. -/
structure ActionV2Row where
  id : Nat
  sujet_id : Nat
  parent_action_id : Option Nat
  type : String
  titre : String
  description : Option String
  responsable : Option String
  due_date : Option String
  statut : String
  deriving Repr, DecidableEq

/-- The secondary database. -/
structure StoreDb2 where
  sujets : List SujetV2Row
  actions : List ActionV2Row
  nextSujetId : Nat
  nextActionId : Nat
  deriving Repr, DecidableEq

/-- `SujetNodeIn` (db.py lines 199-205). -/
inductive SujetNodeIn where
  | mk (titre : String) (description code : Option String)
       (children : Option (List SujetNodeIn))
  deriving Repr

/-- `SujetNodeOut` (db.py lines 207-212). -/
inductive SujetNodeOut where
  | mk (id : Nat) (titre : String) (description code : Option String)
       (children : Option (List SujetNodeOut))
  deriving Repr

def SujetNodeOut.id : SujetNodeOut → Nat
  | .mk i _ _ _ _ => i

def SujetNodeOut.children : SujetNodeOut → Option (List SujetNodeOut)
  | .mk _ _ _ _ c => c

/-- `ActionV2In` (db.py lines 219-227).  `due_date : Optional[date]` is
carried as its ISO string. -/
inductive ActionV2In where
  | mk (task : String) (responsible : Option String) (due_date : Option String)
       (status : Status) (product_line plant_site : Option String)
       (children : Option (List ActionV2In))
  deriving Repr

def ActionV2In.status : ActionV2In → Status
  | .mk _ _ _ s _ _ _ => s

/-- `ActionV2Out` (db.py lines 231-239): `status` is a plain string in the
response model. -/
inductive ActionV2Out where
  | mk (id : Nat) (task : String) (responsible : Option String)
       (due_date : Option String) (status : String)
       (product_line plant_site : Option String)
       (children : Option (List ActionV2Out))
  deriving Repr

def ActionV2Out.id : ActionV2Out → Nat
  | .mk i _ _ _ _ _ _ _ => i

def ActionV2Out.status : ActionV2Out → String
  | .mk _ _ _ _ s _ _ _ => s

def ActionV2Out.children : ActionV2Out → Option (List ActionV2Out)
  | .mk _ _ _ _ _ _ _ c => c

/-! ### `/v2` recursive inserters -/

mutual

/-- `_insert_sujet_recursive` (db.py lines 920-943): validates the trimmed
`titre` (422 before the node's insert), inserts, then recurses over the
children with the fresh id as parent.  A database failure on an insert is
the oracle raising (unhandled → HTTP 500). -/
def insert_sujet_recursive (fail : Nat → Bool) (parent_id : Option Nat)
    (node : SujetNodeIn) (st : StoreDb2) : Except Err (SujetNodeOut × StoreDb2) :=
  match node with
  | .mk titre0 description code children =>
    let titre := pyStrip titre0
    if titre.isEmpty then Except.error ⟨422, "Field 'titre' is required"⟩
    else
      let sid := st.nextSujetId
      if fail sid then Except.error ⟨500, "Internal Server Error"⟩
      else
        let row : SujetV2Row :=
          { id := sid, parent_sujet_id := parent_id, code := code,
            titre := titre, description := description }
        let st1 := { st with sujets := st.sujets ++ [row], nextSujetId := sid + 1 }
        match children with   -- `for ch in (node.children or []):`
        | none => Except.ok (.mk sid titre description code none, st1)
        | some cs => do
          let (children_out, st2) ← insert_sujet_children fail sid cs st1
          Except.ok (.mk sid titre description code
                       (if children_out.isEmpty then none else some children_out), st2)

/-- The `for ch in (node.children or [])` loop of db.py lines 932-935. -/
def insert_sujet_children (fail : Nat → Bool) (parent_id : Nat)
    (cs : List SujetNodeIn) (st : StoreDb2) :
    Except Err (List SujetNodeOut × StoreDb2) :=
  match cs with
  | [] => Except.ok ([], st)
  | c :: rest => do
    let (o, st1) ← insert_sujet_recursive fail (some parent_id) c st
    let (os, st2) ← insert_sujet_children fail parent_id rest st1
    Except.ok (o :: os, st2)

end

/-- `POST /v2/sujets/tree` (db.py lines 945-953): the whole recursive insert
runs inside `with conn`; on an escaping exception the transaction is rolled
back and the error surfaces, otherwise it commits. -/
def create_sujet_tree_v2 (fail : Nat → Bool) (st : StoreDb2) (root : SujetNodeIn) :
    Except Err SujetNodeOut × StoreDb2 :=
  match insert_sujet_recursive fail none root st with
  | Except.error e => (Except.error e, st)
  | Except.ok (out, st') => (Except.ok out, st')

mutual

/-- `_insert_action_recursive` (db.py lines 1003-1034): inserts the row with
type `"action"`, the trimmed task as `titre`, `(responsible or None)`, and
the `STATUS_MAP_APP_TO_DB` label, then recurses over the children.  The
response echoes the payload's own field values (untrimmed task, app status
label). -/
def insert_action_recursive (fail : Nat → Bool) (parent_action_id : Option Nat)
    (sujet_id : Nat) (node : ActionV2In) (st : StoreDb2) :
    Except Err (ActionV2Out × StoreDb2) :=
  match node with
  | .mk task responsible due_date status product_line plant_site children =>
    let aid := st.nextActionId
    if fail aid then Except.error ⟨500, "Internal Server Error"⟩
    else
      let row : ActionV2Row :=
        { id := aid, sujet_id := sujet_id, parent_action_id := parent_action_id,
          type := "action", titre := pyStrip task, description := none,
          responsable := orNone responsible, due_date := due_date,
          statut := STATUS_MAP_APP_TO_DB status }
      let st1 := { st with actions := st.actions ++ [row], nextActionId := aid + 1 }
      match children with   -- `for ch in (node.children or []):`
      | none =>
        Except.ok (.mk aid task responsible due_date status.toDb product_line plant_site
                     none, st1)
      | some cs => do
        let (children_out, st2) ← insert_action_children fail aid sujet_id cs st1
        Except.ok (.mk aid task responsible due_date status.toDb product_line plant_site
                     (if children_out.isEmpty then none else some children_out), st2)

/-- The `for ch in (node.children or [])` loop of db.py lines 1020-1023. -/
def insert_action_children (fail : Nat → Bool) (parent_action_id sujet_id : Nat)
    (cs : List ActionV2In) (st : StoreDb2) :
    Except Err (List ActionV2Out × StoreDb2) :=
  match cs with
  | [] => Except.ok ([], st)
  | c :: rest => do
    let (o, st1) ← insert_action_recursive fail (some parent_action_id) sujet_id c st
    let (os, st2) ← insert_action_children fail parent_action_id sujet_id rest st1
    Except.ok (o :: os, st2)

end

/-- `POST /v2/actions/tree` (db.py lines 1036-1048): validates the sujet
(404 before any insert), then the recursive insert inside the `with conn`
transaction. -/
def create_action_tree_v2 (fail : Nat → Bool) (st : StoreDb2) (sujet_id : Nat)
    (root : ActionV2In) : Except Err ActionV2Out × StoreDb2 :=
  if (st.sujets.find? (fun s => s.id == sujet_id)).isNone then
    (Except.error ⟨404, "Sujet not found"⟩, st)
  else
    match insert_action_recursive fail none sujet_id root st with
    | Except.error e => (Except.error e, st)
    | Except.ok (out, st') => (Except.ok out, st')

/-! ### `/v2` tree readers (the `by_parent` / `attach` builder) -/

/-- Rows grouped under parent key `p` by
`by_parent.setdefault(parent, []).append(...)` (db.py lines 1080-1082), in
load order.  Unlike the 2.0.0 builder there is no truthiness or resolution
check: the key is the raw `parent_action_id` value. -/
def actionV2ChildRows (rows : List ActionV2Row) (p : Option Nat) : List ActionV2Row :=
  rows.filter (fun r => r.parent_action_id == p)

/-- `mk` + `attach` (db.py lines 1067-1088) rendered as a recursion on fuel:
children in load order, an empty children list normalized to `None`. -/
def buildActionV2Out (rows : List ActionV2Row) : Nat → ActionV2Row → ActionV2Out
  | 0, r => .mk r.id r.titre r.responsable r.due_date r.statut none none none
  | fuel + 1, r =>
    let cs := (actionV2ChildRows rows (some r.id)).map (buildActionV2Out rows fuel)
    .mk r.id r.titre r.responsable r.due_date r.statut none none
        (if cs.isEmpty then none else some cs)

/-- `GET /v2/actions/tree` (db.py lines 1050-1095): 404 when the sujet does
not exist, otherwise the forest of rows with `parent_action_id IS NULL`
over the sujet's rows loaded in ascending id order. -/
def get_actions_tree_v2 (st : StoreDb2) (sujet_id : Nat) : Except Err (List ActionV2Out) :=
  if (st.sujets.find? (fun s => s.id == sujet_id)).isNone then
    Except.error ⟨404, "Sujet not found"⟩
  else
    let rows := st.actions.filter (fun r => r.sujet_id == sujet_id)
    Except.ok ((actionV2ChildRows rows none).map (buildActionV2Out rows rows.length))

/-- One step of the recursive CTE of `GET /v2/sujets/tree` (db.py
lines 965-977): add every row whose parent is already reached. -/
def sujetV2ReachStep (rows : List SujetV2Row) (reached : List Nat) : List Nat :=
  reached ++ (rows.filter (fun r =>
    !reached.contains r.id &&
      match r.parent_sujet_id with
      | some p => reached.contains p
      | none => false)).map (·.id)

/-- Fixpoint of the CTE reached after `fuel` steps. -/
def sujetV2Reach (rows : List SujetV2Row) : Nat → List Nat → List Nat
  | 0, reached => reached
  | fuel + 1, reached => sujetV2Reach rows fuel (sujetV2ReachStep rows reached)

/-- `by_parent.setdefault` grouping for sujets (db.py lines 984-986). -/
def sujetV2ChildRows (rows : List SujetV2Row) (p : Option Nat) : List SujetV2Row :=
  rows.filter (fun r => r.parent_sujet_id == p)

/-- `mk` + `attach` for sujets (db.py lines 981-992). -/
def buildSujetV2Out (rows : List SujetV2Row) : Nat → SujetV2Row → SujetNodeOut
  | 0, r => .mk r.id r.titre r.description r.code none
  | fuel + 1, r =>
    let cs := (sujetV2ChildRows rows (some r.id)).map (buildSujetV2Out rows fuel)
    .mk r.id r.titre r.description r.code (if cs.isEmpty then none else some cs)

/-- `GET /v2/sujets/tree` (db.py lines 955-998): 404 when the root row does
not exist; otherwise loads the recursive closure of the root in ascending
id order and attaches children starting from a fresh copy of the root
row. -/
def get_sujet_tree_v2 (st : StoreDb2) (root_id : Nat) : Except Err SujetNodeOut :=
  match st.sujets.find? (fun s => s.id == root_id) with
  | none => Except.error ⟨404, "Sujet root not found"⟩
  | some head =>
    let reach := sujetV2Reach st.sujets st.sujets.length [root_id]
    let rows := st.sujets.filter (fun r => reach.contains r.id)
    Except.ok (buildSujetV2Out rows rows.length head)

/-! ## Specification functions for the bulk round-trip

Pure descriptions of what `insert_node` produces when no insert fails: the
generated rows in insertion (preorder) order, the node count, and the
response tree, all as functions of the first fresh id. -/

mutual

/-- Number of rows `insert_node` inserts for one payload node. -/
def sizeT : ActionTreeIn → Nat
  | .mk _ _ _ _ _ _ none => 1
  | .mk _ _ _ _ _ _ (some cs) => 1 + sizeF cs

/-- Number of rows inserted for a list of payload nodes. -/
def sizeF : List ActionTreeIn → Nat
  | [] => 0
  | c :: cs => sizeT c + sizeF cs

end

mutual

/-- The rows `insert_node fail sujet_id t parent st` appends when no insert
fails and `st.nextActionId = n`, in insertion order. -/
def rowsT (sid : Nat) (parent : Option Nat) (n : Nat) : ActionTreeIn → List ActionRow
  | .mk task responsible due_date status product_line plant_site children =>
    { id := n, sujet_id := sid, task := task, responsible := responsible,
      due_date := due_date, status := status, product_line := product_line,
      plant_site := plant_site, parent_action_id := parent } ::
    (match children with
     | none => []
     | some cs => rowsF sid (some n) (n + 1) cs)

/-- Rows appended for a list of sibling payload nodes sharing `parent`. -/
def rowsF (sid : Nat) (parent : Option Nat) (n : Nat) : List ActionTreeIn → List ActionRow
  | [] => []
  | c :: cs => rowsT sid parent n c ++ rowsF sid parent (n + sizeT c) cs

end

mutual

/-- The id tree the bulk endpoint reports for one payload node whose row
got id `n`. -/
def outT (n : Nat) : ActionTreeIn → ActionTreeOutNode
  | .mk _ _ _ _ _ _ none => .mk n none
  | .mk _ _ _ _ _ _ (some cs) =>
    .mk n (if cs.isEmpty then none else some (outF (n + 1) cs))

/-- Id trees reported for a list of sibling payload nodes. -/
def outF (n : Nat) : List ActionTreeIn → List ActionTreeOutNode
  | [] => []
  | c :: cs => outT n c :: outF (n + sizeT c) cs

end

/-- The first row (the node's own row) of `rowsT sid parent n t`. -/
def hdRow (sid : Nat) (parent : Option Nat) (n : Nat) : ActionTreeIn → ActionRow
  | .mk task responsible due_date status product_line plant_site _ =>
    { id := n, sujet_id := sid, task := task, responsible := responsible,
      due_date := due_date, status := status, product_line := product_line,
      plant_site := plant_site, parent_action_id := parent }

/-- The head rows of a list of sibling subtrees, in order. -/
def hdRowsF (sid : Nat) (parent : Option Nat) (n : Nat) : List ActionTreeIn → List ActionRow
  | [] => []
  | c :: cs => hdRow sid parent n c :: hdRowsF sid parent (n + sizeT c) cs

/-! ### Restriction of a read forest to a set of ids, and shape projection -/

mutual

/-- Restrict one read item to the nodes satisfying `keep`, projected to the
id-only tree (the subtrees of dropped nodes are dropped with them; a
children list emptied by the restriction is normalized to the absent
marker, matching the bulk response's `children_out or None`). -/
def pruneItem (keep : Nat → Bool) : ActionTreeItem → ActionTreeOutNode
  | .mk i _ _ _ _ _ _ _ children => .mk i (pruneChildren keep children)

def pruneChildren (keep : Nat → Bool) :
    Option (List ActionTreeItem) → Option (List ActionTreeOutNode)
  | none => none
  | some cs =>
    let ps := pruneItems keep cs
    if ps.isEmpty then none else some ps

def pruneItems (keep : Nat → Bool) : List ActionTreeItem → List ActionTreeOutNode
  | [] => []
  | c :: cs =>
    match c with
    | .mk i _ _ _ _ _ _ _ children =>
      if keep i then .mk i (pruneChildren keep children) :: pruneItems keep cs
      else pruneItems keep cs

end

/-- A pure branching shape: what the round-trip claim compares between
payload, response and re-read forest. -/
inductive Shape where
  | mk (children : List Shape)
  deriving Repr

mutual

/-- Branching shape of a payload node (`children = None` and `children = []`
both mean no children, as in the inserter's truthiness test). -/
def shapeOfIn : ActionTreeIn → Shape
  | .mk _ _ _ _ _ _ none => .mk []
  | .mk _ _ _ _ _ _ (some cs) => .mk (shapesOfIn cs)

def shapesOfIn : List ActionTreeIn → List Shape
  | [] => []
  | c :: cs => shapeOfIn c :: shapesOfIn cs

end

mutual

/-- Branching shape of a bulk-response node. -/
def shapeOfOut : ActionTreeOutNode → Shape
  | .mk _ none => .mk []
  | .mk _ (some cs) => .mk (shapesOfOut cs)

def shapesOfOut : List ActionTreeOutNode → List Shape
  | [] => []
  | c :: cs => shapeOfOut c :: shapesOfOut cs

end

/-! ### Decidable well-formedness of read forests (for the ordering and
children-marker claims) -/

/-- Strictly ascending list of ids. -/
def strictAsc : List Nat → Bool
  | [] => true
  | [_] => true
  | a :: b :: t => decide (a < b) && strictAsc (b :: t)

def itemIds (cs : List ActionTreeItem) : List Nat := cs.map ActionTreeItem.id

mutual

/-- Every node of the item: children are either the absent marker or a
nonempty list in strictly ascending id order. -/
def goodActionItem : ActionTreeItem → Bool
  | .mk _ _ _ _ _ _ _ _ none => true
  | .mk _ _ _ _ _ _ _ _ (some cs) =>
    !cs.isEmpty && strictAsc (itemIds cs) && goodActionItems cs

def goodActionItems : List ActionTreeItem → Bool
  | [] => true
  | c :: cs => goodActionItem c && goodActionItems cs

end

def sujetNodeIds (cs : List SujetTreeNode) : List Nat := cs.map SujetTreeNode.id

mutual

def goodSujetNode : SujetTreeNode → Bool
  | .mk _ _ none => true
  | .mk _ _ (some cs) =>
    !cs.isEmpty && strictAsc (sujetNodeIds cs) && goodSujetNodes cs

def goodSujetNodes : List SujetTreeNode → Bool
  | [] => true
  | c :: cs => goodSujetNode c && goodSujetNodes cs

end

def actionV2OutIds (cs : List ActionV2Out) : List Nat := cs.map ActionV2Out.id

mutual

def goodActionV2Out : ActionV2Out → Bool
  | .mk _ _ _ _ _ _ _ none => true
  | .mk _ _ _ _ _ _ _ (some cs) =>
    !cs.isEmpty && strictAsc (actionV2OutIds cs) && goodActionV2Outs cs

def goodActionV2Outs : List ActionV2Out → Bool
  | [] => true
  | c :: cs => goodActionV2Out c && goodActionV2Outs cs

end

def sujetNodeOutIds (cs : List SujetNodeOut) : List Nat := cs.map SujetNodeOut.id

mutual

def goodSujetNodeOut : SujetNodeOut → Bool
  | .mk _ _ _ _ none => true
  | .mk _ _ _ _ (some cs) =>
    !cs.isEmpty && strictAsc (sujetNodeOutIds cs) && goodSujetNodeOuts cs

def goodSujetNodeOuts : List SujetNodeOut → Bool
  | [] => true
  | c :: cs => goodSujetNodeOut c && goodSujetNodeOuts cs

end

/-! ### Status collection and id membership over read forests -/

mutual

/-- Every `status` string in the item's subtree lies in the closed set. -/
def itemStatusesClosed : ActionTreeItem → Bool
  | .mk _ _ _ _ _ s _ _ none => statusClosedSet.contains s
  | .mk _ _ _ _ _ s _ _ (some cs) => statusClosedSet.contains s && itemsStatusesClosed cs

def itemsStatusesClosed : List ActionTreeItem → Bool
  | [] => true
  | c :: cs => itemStatusesClosed c && itemsStatusesClosed cs

end

mutual

/-- Every `status` string in the `/v2` read node's subtree lies in the
closed set. -/
def v2StatusesClosed : ActionV2Out → Bool
  | .mk _ _ _ _ s _ _ none => statusClosedSet.contains s
  | .mk _ _ _ _ s _ _ (some cs) => statusClosedSet.contains s && v2sStatusesClosed cs

def v2sStatusesClosed : List ActionV2Out → Bool
  | [] => true
  | c :: cs => v2StatusesClosed c && v2sStatusesClosed cs

end

mutual

/-- Whether id `k` occurs anywhere in the returned sujet tree. -/
def sujetNodeHasId (k : Nat) : SujetTreeNode → Bool
  | .mk i _ none => i == k
  | .mk i _ (some cs) => i == k || sujetNodesHaveId k cs

def sujetNodesHaveId (k : Nat) : List SujetTreeNode → Bool
  | [] => false
  | c :: cs => sujetNodeHasId k c || sujetNodesHaveId k cs

end

/-! ## Concrete fixtures used by witnesses and counterexamples -/

/-- The always-successful database: no insert fails. -/
def noFail : Nat → Bool := fun _ => false

/-- A 1.7.0 store holding one conversation. -/
def fxStore17 : Store17 :=
  { conversations := [⟨1, "majed", "Q: ...", 0, none, none, none⟩],
    sujets := [], sous_sujets := [], actions := [], sous_actions := [],
    sous_sous_actions := [], nextConvId := 2, nextSujetId := 1, nextSousSujetId := 1,
    nextActionId := 1, nextSousActionId := 1, nextSousSousActionId := 1, now := 7 }

/-- A 1.7.0 store with a conversation, a sujet and a sous-sujet (for the
bulk-action fixtures). -/
def fxStore17Tree : Store17 :=
  { conversations := [⟨1, "majed", "Q: ...", 0, none, none, none⟩],
    sujets := [⟨1, 1, "s", 0⟩], sous_sujets := [⟨1, 1, "ss", 0⟩],
    actions := [], sous_actions := [], sous_sous_actions := [],
    nextConvId := 2, nextSujetId := 2, nextSousSujetId := 2,
    nextActionId := 1, nextSousActionId := 1, nextSousSousActionId := 1, now := 7 }

/-- A 2.0.0 store holding one conversation and one sujet. -/
def fxStoreV2 : StoreV2 :=
  { conversations := [⟨1, "u", "c", 0⟩], sujets := [⟨1, 1, "s", none, 0⟩],
    actions := [], nextConvId := 2, nextSujetId := 2, nextActionId := 1, now := 5 }

/-- A 2.0.0 store with two conversations and one sujet in each (for the
cross-scope checks). -/
def fxStoreV2Cross : StoreV2 :=
  { conversations := [⟨1, "u", "c", 0⟩, ⟨2, "v", "d", 0⟩],
    sujets := [⟨1, 1, "a", none, 0⟩, ⟨2, 2, "b", none, 0⟩],
    actions := [⟨1, 1, "t", "r", "d", .nouvelle, none, none, none⟩],
    nextConvId := 3, nextSujetId := 3, nextActionId := 2, now := 5 }

/-- A 2.0.0 store whose sujet row 2 has an unresolved parent reference 99
(same conversation as roots 1 and 3). -/
def fxStoreOrphan : StoreV2 :=
  { conversations := [⟨1, "u", "c", 0⟩],
    sujets := [⟨1, 1, "a", none, 0⟩, ⟨2, 1, "b", some 99, 0⟩, ⟨3, 1, "c", some 1, 0⟩],
    actions := [⟨1, 1, "t", "r", "d", .nouvelle, none, none, none⟩,
                ⟨2, 1, "u", "r", "d", .nouvelle, none, none, some 77⟩],
    nextConvId := 2, nextSujetId := 4, nextActionId := 3, now := 5 }

/-- A secondary-database store holding one sujet. -/
def fxStoreDb2 : StoreDb2 :=
  { sujets := [⟨1, none, none, "s", none⟩], actions := [],
    nextSujetId := 2, nextActionId := 1 }

/-- A three-node nested bulk payload: A (children B, D), B (child C), plus
root E. -/
def fxBulk : ActionsBulkIn :=
  { sujet_id := 1,
    items := [ .mk "A" "r" "d" .nouvelle none none
                  (some [ .mk "B" "r" "d" .en_cours none none
                            (some [ .mk "C" "r" "d" .nouvelle none none none ]),
                          .mk "D" "r" "d" .nouvelle none none (some []) ]),
               .mk "E" "r" "d" .terminee none none none ] }

/-- A 10 MB byte payload. -/
def bytes10MB : List Nat := List.replicate (10 * 1024 * 1024) 0

/-- A 10 MB + 1 byte payload. -/
def bytes10MBplus : List Nat := List.replicate (10 * 1024 * 1024 + 1) 0

/-- A save-conversation payload with a 10 MB image. -/
def fxImgOk : ConversationIn17 :=
  { user_name := "majed", conversation := "Q: ...", date_conversation := some 3,
    image_base64 := some bytes10MB, image_mime := some "image/png",
    image_filename := some "a.png" }

/-- A save-conversation payload with a 10 MB + 1 byte image. -/
def fxImgBig : ConversationIn17 :=
  { fxImgOk with image_base64 := some bytes10MBplus }

/-- A payload whose `user_name` carries surrounding whitespace. -/
def fxNameWs17 : ConversationIn17 :=
  { user_name := "  majed ", conversation := "body , text", date_conversation := none,
    image_base64 := none, image_mime := none, image_filename := none }

/-- The 2.0.0 counterpart of `fxNameWs17`. -/
def fxNameWsV2 : ConversationIn :=
  { user_name := "  majed ", conversation := "body , text", date_conversation := none }

/-- Children-marker and ordering well-formedness of a 1.7.0 sous-action
item: `sous_sous_actions` is either the absent marker or a nonempty list in
ascending id order. -/
def good17SA (sa : SousActionTreeItem) : Bool :=
  match sa.sous_sous_actions with
  | none => true
  | some l => !l.isEmpty && strictAsc (l.map SousSousActionTreeItem.sous_sous_action_id)

/-- Well-formedness of a 1.7.0 action item and its nested levels. -/
def good17Action (a : ActionTreeItem17) : Bool :=
  match a.sous_actions with
  | none => true
  | some l =>
    !l.isEmpty && strictAsc (l.map SousActionTreeItem.sous_action_id) && l.all good17SA

/-- Well-formedness of a 1.7.0 sous-sujet item of `GET /tree/sujet`. -/
def good17SousSujet (ss : SousSujetTreeItem) : Bool :=
  match ss.actions with
  | none => true
  | some l =>
    !l.isEmpty && strictAsc (l.map ActionTreeItem17.action_id) && l.all good17Action

/-- A secondary-database store populated through `POST /v2/actions/tree`
(root `t` with child `u`). -/
def fxDb2WithActions : StoreDb2 :=
  (create_action_tree_v2 noFail fxStoreDb2 1
    (.mk "t" none none .nouvelle none none
      (some [.mk "u" none none .en_cours none none none]))).2

/-- A secondary-database store populated through `POST /v2/sujets/tree`
(root `r` with children `c1`, `c2`). -/
def fxDb2WithSujets : StoreDb2 :=
  (create_sujet_tree_v2 noFail fxStoreDb2
    (.mk "r" none none (some [.mk "c1" none none none, .mk "c2" none none none]))).2

/-- A 1.7.0 store populated through `POST /actions/bulk` with one action /
sous-action / sous-sous-action chain. -/
def fxStore17Filled : Store17 :=
  (create_actions_bulk17 noFail fxStore17Tree
    ⟨1, [⟨"a", "r", "d", .nouvelle, none, none,
         some [⟨"sa", "r", "d", .en_cours, none, none,
               some [⟨"ssa", "r", "d", .terminee, none, none⟩]⟩]⟩]⟩).2

/-- The forest `GET /actions/tree` renders from `fxStoreOrphan`. -/
def fxItemsOrphan : List ActionTreeItem :=
  [.mk 1 1 "t" "r" "d" "nouvelle" none none none,
   .mk 2 1 "u" "r" "d" "nouvelle" none none none]

/-- The forest `GET /v2/actions/tree` renders from `fxDb2WithActions`. -/
def fxV2Outs : List ActionV2Out :=
  [.mk 1 "t" none none "nouveau" none none
    (some [.mk 2 "u" none none "en_cours" none none none])]

/-- The tree `GET /v2/sujets/tree` renders from `fxDb2WithSujets`. -/
def fxSujetOutV2 : SujetNodeOut :=
  .mk 2 "r" none none (some [.mk 3 "c1" none none none, .mk 4 "c2" none none none])

/-- The action item the 1.7.0 readers render from `fxStore17Filled`. -/
def fx17Action : ActionTreeItem17 :=
  ⟨1, "a", "r", "d", "nouvelle", none, none,
   some [⟨1, "sa", "r", "d", "en_cours", none, none,
         some [⟨1, "ssa", "r", "d", "terminee", none, none⟩]⟩]⟩

/-- The children of a payload node as a plain list (`node.children or []`,
the truthiness reading used by the inserter). -/
def childrenList : ActionTreeIn → List ActionTreeIn
  | .mk _ _ _ _ _ _ none => []
  | .mk _ _ _ _ _ _ (some cs) => cs

/-! # Theorems -/

/-- `find?` skips a prefix in which nothing matches. -/
theorem find?_append_right {α} {p : α → Bool} {l₁ l₂ : List α}
    (h : l₁.find? p = none) : (l₁ ++ l₂).find? p = l₂.find? p := by
  simp [List.find?_append, h]

/-- C6: `POST /save-conversation` with a decoded image of exactly
10·1024·1024 bytes inserts the conversation row (with the stripped user
name and the image bytes); with one byte more it answers 413 and leaves the
store untouched. -/
theorem save_conversation_image_size_boundary (st : Store17) (p : ConversationIn17)
    (bytes : List Nat) (him : p.image_base64 = some bytes) :
    (bytes.length = 10 * 1024 * 1024 →
      (save_conversation17 st p).1 = Except.ok ⟨st.nextConvId, "ok"⟩ ∧
      (save_conversation17 st p).2.conversations =
        st.conversations ++
          [⟨st.nextConvId, pyStrip p.user_name, p.conversation,
            p.date_conversation.getD st.now, some bytes,
            orNone p.image_mime, orNone p.image_filename⟩]) ∧
    (bytes.length = 10 * 1024 * 1024 + 1 →
      save_conversation17 st p = (Except.error ⟨413, "Image too large (max 10 MB)"⟩, st)) := by
  constructor <;> intro hlen <;>
    [skip; skip] <;>
    · have hne : bytes.isEmpty = false := by
        cases bytes with
        | nil => simp at hlen
        | cons a t => rfl
      have himb : imageBytesOf p = some bytes := by
        unfold imageBytesOf
        rw [him]
        simp [hne]
      simp [save_conversation17, himb, hlen]

/-- Witness for C6 at a concrete store and concrete 10 MB / 10 MB + 1
images. -/
theorem save_conversation_image_size_boundary_witness :
    fxImgOk.image_base64 = some bytes10MB ∧
    fxImgBig.image_base64 = some bytes10MBplus ∧
    (save_conversation17 fxStore17 fxImgOk).1 = Except.ok ⟨2, "ok"⟩ ∧
    save_conversation17 fxStore17 fxImgBig =
      (Except.error ⟨413, "Image too large (max 10 MB)"⟩, fxStore17) := by
  refine ⟨rfl, rfl, ?_, ?_⟩
  · exact ((save_conversation_image_size_boundary fxStore17 fxImgOk bytes10MB rfl).1
      (List.length_replicate (10 * 1024 * 1024) 0)).1
  · exact (save_conversation_image_size_boundary fxStore17 fxImgBig bytes10MBplus rfl).2
      (List.length_replicate (10 * 1024 * 1024 + 1) 0)

/-- C10: `POST /save-conversation` stores `user_name` stripped of
surrounding whitespace while the conversation body is stored verbatim, so a
subsequent `GET /conversations/{id}` returns the stripped name and the
exact body — in the 1.7.0 revision (first conjunct, for any accepted
payload) and in the 2.0.0 revision (second conjunct). -/
theorem save_conversation_strips_user_name :
    (∀ (st : Store17) (p : ConversationIn17),
      (∀ r ∈ st.conversations, r.id < st.nextConvId) →
      (∀ bs, p.image_base64 = some bs → ¬ bs.length > 10 * 1024 * 1024) →
      ∃ d : ConversationDetail17,
        get_conversation_by_id17 (save_conversation17 st p).2 st.nextConvId = Except.ok d ∧
        d.user_name = pyStrip p.user_name ∧ d.conversation = p.conversation ∧
        (pyStrip p.user_name ≠ p.user_name → d.user_name ≠ p.user_name)) ∧
    (∀ (st : StoreV2) (p : ConversationIn),
      (∀ r ∈ st.conversations, r.id < st.nextConvId) →
      ∃ d : ConversationDetail,
        get_conversation_by_id (save_conversation st p).2 st.nextConvId = Except.ok d ∧
        d.user_name = pyStrip p.user_name ∧ d.conversation = p.conversation ∧
        (pyStrip p.user_name ≠ p.user_name → d.user_name ≠ p.user_name)) := by
  constructor
  · intro st p hids himg
    have htl :
        (match imageBytesOf p with
         | some bs => decide (bs.length > 10 * 1024 * 1024)
         | none => false) = false := by
      unfold imageBytesOf
      cases hb : p.image_base64 with
      | none => rfl
      | some bs =>
        by_cases he : bs.isEmpty
        · simp [he]
        · simp [he]
          exact Nat.not_lt.mp (fun hlt => himg bs hb hlt)
    have hnone : st.conversations.find? (fun r => r.id == st.nextConvId) = none :=
      List.find?_eq_none.mpr (fun a ha => by
        simpa using Nat.ne_of_lt (hids a ha))
    have heq : get_conversation_by_id17 (save_conversation17 st p).2 st.nextConvId =
        Except.ok ⟨st.nextConvId, pyStrip p.user_name, p.date_conversation.getD st.now,
                   p.conversation, (imageBytesOf p).isSome,
                   orNone p.image_mime, orNone p.image_filename⟩ := by
      simp only [save_conversation17, htl, Bool.false_eq_true, if_false,
        get_conversation_by_id17]
      rw [find?_append_right hnone]
      simp
    exact ⟨_, heq, rfl, rfl, fun hne => hne⟩
  · intro st p hids
    have hnone : st.conversations.find? (fun r => r.id == st.nextConvId) = none :=
      List.find?_eq_none.mpr (fun a ha => by
        simpa using Nat.ne_of_lt (hids a ha))
    have heq : get_conversation_by_id (save_conversation st p).2 st.nextConvId =
        Except.ok ⟨st.nextConvId, pyStrip p.user_name, p.date_conversation.getD st.now,
                   p.conversation⟩ := by
      simp only [save_conversation, get_conversation_by_id]
      rw [find?_append_right hnone]
      simp
    exact ⟨_, heq, rfl, rfl, fun hne => hne⟩

/-- Witness for C10: a payload whose user name carries surrounding
whitespace, in both revisions, with the whitespace hypothesis concretely
nontrivial. -/
theorem save_conversation_strips_user_name_witness :
    (∀ r ∈ fxStore17.conversations, r.id < fxStore17.nextConvId) ∧
    (∀ bs, fxNameWs17.image_base64 = some bs → ¬ bs.length > 10 * 1024 * 1024) ∧
    pyStrip fxNameWs17.user_name ≠ fxNameWs17.user_name ∧
    (∃ d : ConversationDetail17,
      get_conversation_by_id17 (save_conversation17 fxStore17 fxNameWs17).2
          fxStore17.nextConvId = Except.ok d ∧
      d.user_name = pyStrip fxNameWs17.user_name ∧
      d.conversation = fxNameWs17.conversation ∧
      (pyStrip fxNameWs17.user_name ≠ fxNameWs17.user_name → d.user_name ≠ fxNameWs17.user_name)) ∧
    (∃ d : ConversationDetail,
      get_conversation_by_id (save_conversation fxStoreV2 fxNameWsV2).2
          fxStoreV2.nextConvId = Except.ok d ∧
      d.user_name = pyStrip fxNameWsV2.user_name ∧
      d.conversation = fxNameWsV2.conversation ∧
      (pyStrip fxNameWsV2.user_name ≠ fxNameWsV2.user_name → d.user_name ≠ fxNameWsV2.user_name)) := by
  refine ⟨by decide, by simp [fxNameWs17], by decide, ?_, ?_⟩
  · exact save_conversation_strips_user_name.1 fxStore17 fxNameWs17 (by decide)
      (by simp [fxNameWs17])
  · exact save_conversation_strips_user_name.2 fxStoreV2 fxNameWsV2 (by decide)

/-- C5: `POST /sujets` and `POST /actions` with a set (truthy) parent id,
under an existing scope: a missing parent row answers 404 and a parent row
belonging to a different scope answers 400, and in both cases the store is
returned unchanged — no row is inserted. -/
theorem create_parent_validation :
    (∀ (st : StoreV2) (p : SujetIn) (pid : Nat),
      p.parent_id = some pid → pid ≠ 0 →
      (st.conversations.find? (fun c => c.id == p.conversation_id)).isSome →
      ((st.sujets.find? (fun s => s.id == pid) = none →
        create_sujet st p = (Except.error ⟨404, "Parent subject not found"⟩, st)) ∧
       (∀ row, st.sujets.find? (fun s => s.id == pid) = some row →
        row.conversation_id ≠ p.conversation_id →
        create_sujet st p =
          (Except.error ⟨400, "Parent subject belongs to a different conversation"⟩, st)))) ∧
    (∀ (st : StoreV2) (p : ActionNodeIn) (pid : Nat),
      p.parent_action_id = some pid → pid ≠ 0 →
      (st.sujets.find? (fun s => s.id == p.sujet_id)).isSome →
      ((st.actions.find? (fun a => a.id == pid) = none →
        create_action st p = (Except.error ⟨404, "Parent action not found"⟩, st)) ∧
       (∀ row, st.actions.find? (fun a => a.id == pid) = some row →
        row.sujet_id ≠ p.sujet_id →
        create_action st p =
          (Except.error ⟨400, "Parent action belongs to a different sujet"⟩, st)))) := by
  constructor
  · intro st p pid hp hpid hconv
    have hnz : (pid == 0) = false := by simpa using hpid
    have hc : (st.conversations.find? (fun c => c.id == p.conversation_id)).isNone = false := by
      cases h : st.conversations.find? (fun c => c.id == p.conversation_id) with
      | none => rw [h] at hconv; simp at hconv
      | some a => rfl
    constructor
    · intro hfind
      simp [create_sujet, hc, hp, hnz, hfind]
    · intro row hfind hcross
      simp [create_sujet, hc, hp, hnz, hfind, hcross]
  · intro st p pid hp hpid hsuj
    have hnz : (pid == 0) = false := by simpa using hpid
    have hc : (st.sujets.find? (fun s => s.id == p.sujet_id)).isNone = false := by
      cases h : st.sujets.find? (fun s => s.id == p.sujet_id) with
      | none => rw [h] at hsuj; simp at hsuj
      | some a => rfl
    constructor
    · intro hfind
      simp [create_action, hc, hp, hnz, hfind]
    · intro row hfind hcross
      simp [create_action, hc, hp, hnz, hfind, hcross]

/-- Witness for C5: a missing parent (id 9) and a cross-scope parent for
both subjects and actions, on a two-conversation store. -/
theorem create_parent_validation_witness :
    ((⟨1, "x", some 9⟩ : SujetIn).parent_id = some 9 ∧
     create_sujet fxStoreV2Cross ⟨1, "x", some 9⟩ =
       (Except.error ⟨404, "Parent subject not found"⟩, fxStoreV2Cross)) ∧
    (create_sujet fxStoreV2Cross ⟨2, "x", some 1⟩ =
       (Except.error ⟨400, "Parent subject belongs to a different conversation"⟩,
        fxStoreV2Cross)) ∧
    (create_action fxStoreV2Cross ⟨1, "t", "r", "d", .nouvelle, none, none, some 9⟩ =
       (Except.error ⟨404, "Parent action not found"⟩, fxStoreV2Cross)) ∧
    (create_action fxStoreV2Cross ⟨2, "t", "r", "d", .nouvelle, none, none, some 1⟩ =
       (Except.error ⟨400, "Parent action belongs to a different sujet"⟩, fxStoreV2Cross)) := by
  refine ⟨⟨rfl, ?_⟩, ?_, ?_, ?_⟩
  · exact (create_parent_validation.1 fxStoreV2Cross ⟨1, "x", some 9⟩ 9 rfl (by decide)
      (by decide)).1 (by decide)
  · exact (create_parent_validation.1 fxStoreV2Cross ⟨2, "x", some 1⟩ 1 rfl (by decide)
      (by decide)).2 ⟨1, 1, "a", none, 0⟩ (by decide) (by decide)
  · exact (create_parent_validation.2 fxStoreV2Cross
      ⟨1, "t", "r", "d", .nouvelle, none, none, some 9⟩ 9 rfl (by decide) (by decide)).1
      (by decide)
  · exact (create_parent_validation.2 fxStoreV2Cross
      ⟨2, "t", "r", "d", .nouvelle, none, none, some 1⟩ 1 rfl (by decide) (by decide)).2
      ⟨1, 1, "t", "r", "d", .nouvelle, none, none, none⟩ (by decide) (by decide)

/-- C3 counterexample: in the 2.0.0 revision, `POST /sujets` has no
duplicate check — calling it twice with the identical
`(conversation_id, sujet)` pair returns two different ids and leaves two
rows with that pair in the table. -/
theorem create_sujet_v2_duplicates :
    (create_sujet fxStoreV2 ⟨1, "lbl", none⟩).1 = Except.ok ⟨2, 1, "lbl", none, 5⟩ ∧
    (create_sujet (create_sujet fxStoreV2 ⟨1, "lbl", none⟩).2 ⟨1, "lbl", none⟩).1 =
      Except.ok ⟨3, 1, "lbl", none, 6⟩ ∧
    ((create_sujet (create_sujet fxStoreV2 ⟨1, "lbl", none⟩).2 ⟨1, "lbl", none⟩).2.sujets.filter
       (fun s => s.conversation_id == 1 && s.sujet == "lbl")).length = 2 :=
  ⟨rfl, rfl, rfl⟩

/-- C3 (amended): in the 1.7.0 revision (db.py), `POST /sujets` is
idempotent — the second identical call returns the same output row as the
first and leaves the store exactly as the first call left it. -/
theorem create_sujet17_idempotent (st : Store17) (p : SujetIn17)
    (hconv : (st.conversations.find? (fun c => c.id == p.conversation_id)).isSome)
    (hids : ∀ s ∈ st.sujets, s.id < st.nextSujetId) :
    ∃ o : SujetOut17,
      (create_sujet17 st p).1 = Except.ok o ∧
      (create_sujet17 (create_sujet17 st p).2 p).1 = Except.ok o ∧
      (create_sujet17 (create_sujet17 st p).2 p).2 = (create_sujet17 st p).2 := by
  have hc : (st.conversations.find? (fun c => c.id == p.conversation_id)).isNone = false := by
    cases h : st.conversations.find? (fun c => c.id == p.conversation_id) with
    | none => rw [h] at hconv; simp at hconv
    | some a => rfl
  cases hfind : st.sujets.find?
      (fun s => s.conversation_id == p.conversation_id && s.sujet == p.sujet) with
  | some e =>
    -- the row already existed: both calls take the read-only path
    have hmem : e ∈ st.sujets := List.mem_of_find?_eq_some hfind
    have hid : st.sujets.find? (fun s => s.id == e.id) ≠ none := by
      intro hnone
      have := List.find?_eq_none.mp hnone e hmem
      simp at this
    cases hid2 : st.sujets.find? (fun s => s.id == e.id) with
    | none => exact absurd hid2 hid
    | some s =>
      have h1 : create_sujet17 st p =
          (Except.ok ⟨s.id, s.conversation_id, s.sujet, s.created_at⟩, st) := by
        simp [create_sujet17, hc, hfind, hid2]
      refine ⟨⟨s.id, s.conversation_id, s.sujet, s.created_at⟩, ?_, ?_, ?_⟩ <;> simp [h1]
  | none =>
    -- first call inserts, second call finds the inserted row
    set r : Sujet17Row := ⟨st.nextSujetId, p.conversation_id, p.sujet, st.now⟩ with hr
    have h1 : create_sujet17 st p =
        (Except.ok ⟨st.nextSujetId, p.conversation_id, p.sujet, st.now⟩,
         { st with
             sujets := st.sujets ++ [r],
             nextSujetId := st.nextSujetId + 1,
             now := st.now + 1 }) := by
      simp [create_sujet17, hc, hfind, hr]
    have hfind2 : (st.sujets ++ [r]).find?
        (fun s => s.conversation_id == p.conversation_id && s.sujet == p.sujet) = some r := by
      rw [find?_append_right hfind]
      simp [hr]
    have hidnone : st.sujets.find? (fun s => s.id == st.nextSujetId) = none :=
      List.find?_eq_none.mpr (fun a ha => by simpa using Nat.ne_of_lt (hids a ha))
    have hid2 : (st.sujets ++ [r]).find? (fun s => s.id == st.nextSujetId) = some r := by
      rw [find?_append_right hidnone]
      simp [hr]
    refine ⟨⟨st.nextSujetId, p.conversation_id, p.sujet, st.now⟩, by simp [h1], ?_, ?_⟩ <;>
      · rw [h1]
        simp only [create_sujet17]
        simp [hc, hfind2, hid2, hr]

/-- Witness for the amended C3 on a concrete store: second call returns the
same id and the store is unchanged by it. -/
theorem create_sujet17_idempotent_witness :
    (fxStore17.conversations.find? (fun c => c.id == (1 : Nat))).isSome ∧
    (∀ s ∈ fxStore17.sujets, s.id < fxStore17.nextSujetId) ∧
    ∃ o : SujetOut17,
      (create_sujet17 fxStore17 ⟨1, "lbl"⟩).1 = Except.ok o ∧
      (create_sujet17 (create_sujet17 fxStore17 ⟨1, "lbl"⟩).2 ⟨1, "lbl"⟩).1 = Except.ok o ∧
      (create_sujet17 (create_sujet17 fxStore17 ⟨1, "lbl"⟩).2 ⟨1, "lbl"⟩).2 =
        (create_sujet17 fxStore17 ⟨1, "lbl"⟩).2 :=
  ⟨by decide, by decide, create_sujet17_idempotent fxStore17 ⟨1, "lbl"⟩ (by decide) (by decide)⟩

/-- C2: for every bulk/recursive tree insertion — `POST /actions/bulk` in
both revisions, `POST /v2/sujets/tree`, `POST /v2/actions/tree` — whenever
the request fails (an insert raising at any depth, or the mid-tree `titre`
validation), the store returned is exactly the store passed in: every
insert already performed inside the transaction is rolled back. -/
theorem bulk_insert_rollback :
    (∀ (fail : Nat → Bool) (st : StoreV2) (p : ActionsBulkIn) (e : Err),
      (create_actions_bulk fail st p).1 = Except.error e →
      (create_actions_bulk fail st p).2 = st) ∧
    (∀ (fail : Nat → Bool) (st : Store17) (p : ActionsBulkIn17) (e : Err),
      (create_actions_bulk17 fail st p).1 = Except.error e →
      (create_actions_bulk17 fail st p).2 = st) ∧
    (∀ (fail : Nat → Bool) (st : StoreDb2) (root : SujetNodeIn) (e : Err),
      (create_sujet_tree_v2 fail st root).1 = Except.error e →
      (create_sujet_tree_v2 fail st root).2 = st) ∧
    (∀ (fail : Nat → Bool) (st : StoreDb2) (sujet_id : Nat) (root : ActionV2In) (e : Err),
      (create_action_tree_v2 fail st sujet_id root).1 = Except.error e →
      (create_action_tree_v2 fail st sujet_id root).2 = st) := by
  refine ⟨?_, ?_, ?_, ?_⟩
  · intro fail st p e h
    unfold create_actions_bulk at h ⊢
    by_cases hs : (st.sujets.find? (fun s => s.id == p.sujet_id)).isNone
    · simp [hs]
    · simp only [hs, Bool.false_eq_true, if_false] at h ⊢
      cases hi : insert_roots fail p.sujet_id p.items st with
      | error e2 => simp [hi]
      | ok v => rw [hi] at h; simp at h
  · intro fail st p e h
    unfold create_actions_bulk17 at h ⊢
    cases hs : st.sous_sujets.find? (fun ss => ss.id == p.sous_sujet_id) with
    | none => rfl
    | some ss =>
      cases hi : insertActions17 fail p.sous_sujet_id p.actions st with
      | error e2 => simp [hi]
      | ok v => rw [hi] at h; simp [hs] at h
  · intro fail st root e h
    unfold create_sujet_tree_v2 at h ⊢
    cases hi : insert_sujet_recursive fail none root st with
    | error e2 => simp [hi]
    | ok v => rw [hi] at h; simp at h
  · intro fail st sujet_id root e h
    unfold create_action_tree_v2 at h ⊢
    by_cases hs : (st.sujets.find? (fun s => s.id == sujet_id)).isNone
    · simp [hs]
    · simp only [hs, Bool.false_eq_true, if_false] at h ⊢
      cases hi : insert_action_recursive fail none sujet_id root st with
      | error e2 => simp [hi]
      | ok v => rw [hi] at h; simp at h

/-- Witness for C2: concrete failures — the v2 bulk insert failing on its
third row, the 1.7.0 bulk failing on a sous-action insert, a mid-tree
`titre` validation failure, and a failing recursive action insert — each
leaving the store exactly as it was. -/
theorem bulk_insert_rollback_witness :
    ((create_actions_bulk (fun n => n == 3) fxStoreV2 fxBulk).1 =
        Except.error ⟨500, "Insertion failed: db"⟩ ∧
      (create_actions_bulk (fun n => n == 3) fxStoreV2 fxBulk).2 = fxStoreV2) ∧
    ((create_actions_bulk17 (fun n => n == 1) fxStore17Tree
        ⟨1, [⟨"a", "r", "d", .nouvelle, none, none,
             some [⟨"sa", "r", "d", .nouvelle, none, none, none⟩]⟩]⟩).1 =
        Except.error ⟨500, "Insertion failed: db"⟩ ∧
      (create_actions_bulk17 (fun n => n == 1) fxStore17Tree
        ⟨1, [⟨"a", "r", "d", .nouvelle, none, none,
             some [⟨"sa", "r", "d", .nouvelle, none, none, none⟩]⟩]⟩).2 = fxStore17Tree) ∧
    ((create_sujet_tree_v2 noFail fxStoreDb2
        (.mk "t" none none (some [.mk "  " none none none]))).1 =
        Except.error ⟨422, "Field 'titre' is required"⟩ ∧
      (create_sujet_tree_v2 noFail fxStoreDb2
        (.mk "t" none none (some [.mk "  " none none none]))).2 = fxStoreDb2) ∧
    ((create_action_tree_v2 (fun n => n == 2) fxStoreDb2 1
        (.mk "t" none none .nouvelle none none
          (some [.mk "u" none none .nouvelle none none none]))).1 =
        Except.error ⟨500, "Internal Server Error"⟩ ∧
      (create_action_tree_v2 (fun n => n == 2) fxStoreDb2 1
        (.mk "t" none none .nouvelle none none
          (some [.mk "u" none none .nouvelle none none none]))).2 = fxStoreDb2) :=
  ⟨⟨rfl, bulk_insert_rollback.1 (fun n => n == 3) fxStoreV2 fxBulk
      ⟨500, "Insertion failed: db"⟩ rfl⟩,
   ⟨rfl, bulk_insert_rollback.2.1 (fun n => n == 1) fxStore17Tree
      ⟨1, [⟨"a", "r", "d", .nouvelle, none, none,
           some [⟨"sa", "r", "d", .nouvelle, none, none, none⟩]⟩]⟩
      ⟨500, "Insertion failed: db"⟩ rfl⟩,
   ⟨rfl, bulk_insert_rollback.2.2.1 noFail fxStoreDb2
      (.mk "t" none none (some [.mk "  " none none none]))
      ⟨422, "Field 'titre' is required"⟩ rfl⟩,
   ⟨rfl, bulk_insert_rollback.2.2.2 (fun n => n == 2) fxStoreDb2 1
      (.mk "t" none none .nouvelle none none
        (some [.mk "u" none none .nouvelle none none none]))
      ⟨500, "Internal Server Error"⟩ rfl⟩⟩


/-- C4: every modelled tree read or write, given a scope id with no
matching row, answers 404 with the store unchanged — the check precedes
every insert.  (The only tree write with no scope reference,
`POST /v2/sujets/tree`, takes no scope id at all.) -/
theorem scope_missing_404 :
    (∀ (fail : Nat → Bool) (st : StoreV2) (p : ActionsBulkIn),
      st.sujets.find? (fun s => s.id == p.sujet_id) = none →
      create_actions_bulk fail st p = (Except.error ⟨404, "Sujet not found"⟩, st)) ∧
    (∀ (fail : Nat → Bool) (st : Store17) (p : ActionsBulkIn17),
      st.sous_sujets.find? (fun ss => ss.id == p.sous_sujet_id) = none →
      create_actions_bulk17 fail st p = (Except.error ⟨404, "Sous-sujet not found"⟩, st)) ∧
    (∀ (fail : Nat → Bool) (st : StoreDb2) (sujet_id : Nat) (root : ActionV2In),
      st.sujets.find? (fun s => s.id == sujet_id) = none →
      create_action_tree_v2 fail st sujet_id root = (Except.error ⟨404, "Sujet not found"⟩, st)) ∧
    (∀ (st : StoreV2) (sujet_id : Nat),
      st.sujets.find? (fun s => s.id == sujet_id) = none →
      list_actions_tree_by_sujet st sujet_id = Except.error ⟨404, "Sujet not found"⟩) ∧
    (∀ (st : StoreV2) (root_id : Nat),
      st.sujets.find? (fun s => s.id == root_id) = none →
      get_sujet_tree st root_id = Except.error ⟨404, "Sujet not found"⟩) ∧
    (∀ (st : Store17) (sujet_id : Nat),
      st.sujets.find? (fun s => s.id == sujet_id) = none →
      list_actions_by_sujet st sujet_id = Except.error ⟨404, "Sujet not found"⟩) ∧
    (∀ (st : Store17) (sujet_id : Nat),
      st.sujets.find? (fun s => s.id == sujet_id) = none →
      get_full_tree_by_sujet st sujet_id = Except.error ⟨404, "Sujet not found"⟩) ∧
    (∀ (st : StoreDb2) (sujet_id : Nat),
      st.sujets.find? (fun s => s.id == sujet_id) = none →
      get_actions_tree_v2 st sujet_id = Except.error ⟨404, "Sujet not found"⟩) ∧
    (∀ (st : StoreDb2) (root_id : Nat),
      st.sujets.find? (fun s => s.id == root_id) = none →
      get_sujet_tree_v2 st root_id = Except.error ⟨404, "Sujet root not found"⟩) := by
  refine ⟨?_, ?_, ?_, ?_, ?_, ?_, ?_, ?_, ?_⟩ <;>
    first
    | (intro fail st p h; simp [create_actions_bulk, create_actions_bulk17, h])
    | (intro fail st sid root h; simp [create_action_tree_v2, h])
    | (intro st sid h;
       simp [list_actions_tree_by_sujet, get_sujet_tree, list_actions_by_sujet,
             get_full_tree_by_sujet, get_actions_tree_v2, get_sujet_tree_v2, h])

/-- Witness for C4: scope id 99 exists in none of the fixture stores; every
operation answers 404 and returns its store unchanged. -/
theorem scope_missing_404_witness :
    (fxStoreV2.sujets.find? (fun s => s.id == (99 : Nat)) = none ∧
      create_actions_bulk noFail fxStoreV2 ⟨99, []⟩ =
        (Except.error ⟨404, "Sujet not found"⟩, fxStoreV2)) ∧
    (create_actions_bulk17 noFail fxStore17Tree ⟨99, []⟩ =
        (Except.error ⟨404, "Sous-sujet not found"⟩, fxStore17Tree)) ∧
    (create_action_tree_v2 noFail fxStoreDb2 99 (.mk "t" none none .nouvelle none none none) =
        (Except.error ⟨404, "Sujet not found"⟩, fxStoreDb2)) ∧
    (list_actions_tree_by_sujet fxStoreV2 99 = Except.error ⟨404, "Sujet not found"⟩) ∧
    (get_sujet_tree fxStoreV2 99 = Except.error ⟨404, "Sujet not found"⟩) ∧
    (list_actions_by_sujet fxStore17Tree 99 = Except.error ⟨404, "Sujet not found"⟩) ∧
    (get_full_tree_by_sujet fxStore17Tree 99 = Except.error ⟨404, "Sujet not found"⟩) ∧
    (get_actions_tree_v2 fxStoreDb2 99 = Except.error ⟨404, "Sujet not found"⟩) ∧
    (get_sujet_tree_v2 fxStoreDb2 99 = Except.error ⟨404, "Sujet root not found"⟩) :=
  ⟨⟨rfl, scope_missing_404.1 noFail fxStoreV2 ⟨99, []⟩ rfl⟩,
   scope_missing_404.2.1 noFail fxStore17Tree ⟨99, []⟩ rfl,
   scope_missing_404.2.2.1 noFail fxStoreDb2 99 (.mk "t" none none .nouvelle none none none) rfl,
   scope_missing_404.2.2.2.1 fxStoreV2 99 rfl,
   scope_missing_404.2.2.2.2.1 fxStoreV2 99 rfl,
   scope_missing_404.2.2.2.2.2.1 fxStore17Tree 99 rfl,
   scope_missing_404.2.2.2.2.2.2.1 fxStore17Tree 99 rfl,
   scope_missing_404.2.2.2.2.2.2.2.1 fxStoreDb2 99 rfl,
   scope_missing_404.2.2.2.2.2.2.2.2 fxStoreDb2 99 rfl⟩


/-- Each `Status` serializes into the closed set. -/
theorem statusClosed_toDb (s : Status) : statusClosedSet.contains s.toDb = true := by
  cases s <;> rfl

/-- A list is `itemsStatusesClosed` when each element is. -/
theorem itemsStatusesClosed_of_forall (l : List ActionTreeItem)
    (h : ∀ c ∈ l, itemStatusesClosed c = true) : itemsStatusesClosed l = true := by
  induction l with
  | nil => rfl
  | cons c cs ih =>
    simp only [itemsStatusesClosed, Bool.and_eq_true]
    exact ⟨h c (List.mem_cons_self c cs), ih fun x hx => h x (List.mem_cons_of_mem c hx)⟩

/-- Every item the 2.0.0 tree builder renders carries a closed-set status
string, whatever the rows. -/
theorem buildActionItem_statusesClosed (rows : List ActionRow) :
    ∀ (fuel : Nat) (r : ActionRow),
      itemStatusesClosed (buildActionItem rows fuel r) = true := by
  intro fuel
  induction fuel with
  | zero =>
    intro r
    simp only [buildActionItem, itemStatusesClosed]
    exact statusClosed_toDb r.status
  | succ fuel ih =>
    intro r
    simp only [buildActionItem]
    cases he : ((actionChildRows rows r.id).map (buildActionItem rows fuel)).isEmpty with
    | true =>
      simp only [he, if_true, itemStatusesClosed]
      exact statusClosed_toDb r.status
    | false =>
      simp only [he, Bool.false_eq_true, if_false, itemStatusesClosed, Bool.and_eq_true]
      refine ⟨statusClosed_toDb r.status, itemsStatusesClosed_of_forall _ ?_⟩
      intro c hc
      obtain ⟨x, _, rfl⟩ := List.mem_map.mp hc
      exact ih x

/-- C7 (amended): every status accepted at the API boundary lies in the
closed set `{nouvelle, en_cours, bloquee, terminee, annulee}` (first
conjunct: the `Status` type serializes into it), and the 2.0.0 read path
`GET /actions/tree` only ever returns statuses from this closed set (second
conjunct); the `/v2` read path, by contrast, returns the storage labels
(see the counterexample). -/
theorem action_status_closed_set :
    (∀ s : Status, statusClosedSet.contains s.toDb = true) ∧
    (∀ (st : StoreV2) (sujet_id : Nat) (treeOut : ActionsTreeOut),
      list_actions_tree_by_sujet st sujet_id = Except.ok treeOut →
      itemsStatusesClosed treeOut.items = true) := by
  refine ⟨statusClosed_toDb, ?_⟩
  intro st sujet_id treeOut h
  unfold list_actions_tree_by_sujet at h
  by_cases hs : (st.sujets.find? (fun s => s.id == sujet_id)).isNone
  · simp [hs] at h
  · simp only [hs, Bool.false_eq_true, if_false, Except.ok.injEq] at h
    subst h
    refine itemsStatusesClosed_of_forall _ ?_
    intro c hc
    obtain ⟨x, _, rfl⟩ := List.mem_map.mp hc
    exact buildActionItem_statusesClosed _ _ _

/-- Witness for the amended C7 at a concrete store: the read returns one
item and its statuses are all in the closed set. -/
theorem action_status_closed_set_witness :
    (statusClosedSet.contains (Status.annulee).toDb = true) ∧
    (list_actions_tree_by_sujet fxStoreV2Cross 1 =
      Except.ok ⟨1, [.mk 1 1 "t" "r" "d" "nouvelle" none none none]⟩) ∧
    itemsStatusesClosed [ActionTreeItem.mk 1 1 "t" "r" "d" "nouvelle" none none none] = true :=
  ⟨action_status_closed_set.1 Status.annulee, rfl,
   action_status_closed_set.2 fxStoreV2Cross 1 ⟨1, [.mk 1 1 "t" "r" "d" "nouvelle" none none none]⟩ rfl⟩

/-- C7 counterexample: an action created through `POST /v2/actions/tree`
with the boundary-validated status `nouvelle` is stored under the
revision-specific label `nouveau`, and `GET /v2/actions/tree` returns that
label to the client — a status string outside the closed set. -/
theorem v2_read_status_outside_closed_set :
    get_actions_tree_v2
        (create_action_tree_v2 noFail fxStoreDb2 1
          (.mk "t" none none .nouvelle none none none)).2 1 =
      Except.ok [.mk 1 "t" none none "nouveau" none none none] ∧
    statusClosedSet.contains "nouveau" = false :=
  ⟨rfl, rfl⟩


/-- The builder keeps the row's id at the root of the rendered item. -/
theorem buildActionItem_id (rows : List ActionRow) (fuel : Nat) (r : ActionRow) :
    (buildActionItem rows fuel r).id = r.id := by
  cases fuel <;> rfl

/-- C8 counterexample: in `GET /sujets/tree`, sujet row 2 is loaded for the
scope (same conversation as root 1), its parent 99 resolves to no loaded
row, yet the response — the subtree of the requested root only — does not
contain it anywhere: the orphan row is dropped from the returned tree
rather than appearing as a root. -/
theorem sujet_tree_drops_orphan :
    (⟨2, 1, "b", some 99, 0⟩ : SujetRow) ∈ fxStoreOrphan.sujets ∧
    (fxStoreOrphan.sujets.map SujetRow.id).contains 99 = false ∧
    get_sujet_tree fxStoreOrphan 1 =
      Except.ok ⟨1, .mk 1 "a" (some [.mk 3 "c" none])⟩ ∧
    sujetNodeHasId 2 (SujetTreeNode.mk 1 "a" (some [.mk 3 "c" none])) = false := by
  refine ⟨?_, rfl, rfl, rfl⟩
  simp [fxStoreOrphan]

/-- C8 (amended): in the forest-returning read path `GET /actions/tree`,
the roots of the returned forest are exactly the loaded rows whose
`parent_action_id` is null, zero, or does not resolve among the loaded
ids, in load order — in particular every such orphan row appears as a
root.  `GET /sujets/tree` also raises no error on such rows, but returns
only the requested root's subtree. -/
theorem orphan_rows_become_roots (st : StoreV2) (sujet_id : Nat)
    (treeOut : ActionsTreeOut)
    (h : list_actions_tree_by_sujet st sujet_id = Except.ok treeOut) :
    itemIds treeOut.items =
      ((st.actions.filter (fun r => r.sujet_id == sujet_id)).filter
        (actionIsRoot (st.actions.filter (fun r => r.sujet_id == sujet_id)))).map
        ActionRow.id ∧
    ∀ r ∈ st.actions.filter (fun r => r.sujet_id == sujet_id),
      actionIsRoot (st.actions.filter (fun r => r.sujet_id == sujet_id)) r = true →
      r.id ∈ itemIds treeOut.items := by
  unfold list_actions_tree_by_sujet at h
  by_cases hs : (st.sujets.find? (fun s => s.id == sujet_id)).isNone
  · simp [hs] at h
  · simp only [hs, Bool.false_eq_true, if_false, Except.ok.injEq] at h
    subst h
    constructor
    · simp only [itemIds, List.map_map]
      refine List.map_congr_left ?_
      intro r _
      exact buildActionItem_id _ _ r
    · intro r hmem hroot
      simp only [itemIds, List.map_map]
      refine List.mem_map.mpr ⟨r, List.mem_filter.mpr ⟨hmem, hroot⟩, ?_⟩
      exact buildActionItem_id _ _ r

/-- Witness for the amended C8 on a store whose action row 2 has the
unresolved parent 77: it is returned as a root next to row 1. -/
theorem orphan_rows_become_roots_witness :
    (list_actions_tree_by_sujet fxStoreOrphan 1 =
      Except.ok ⟨1, [.mk 1 1 "t" "r" "d" "nouvelle" none none none,
                     .mk 2 1 "u" "r" "d" "nouvelle" none none none]⟩) ∧
    (itemIds [ActionTreeItem.mk 1 1 "t" "r" "d" "nouvelle" none none none,
              ActionTreeItem.mk 2 1 "u" "r" "d" "nouvelle" none none none] =
      ((fxStoreOrphan.actions.filter (fun r => r.sujet_id == 1)).filter
        (actionIsRoot (fxStoreOrphan.actions.filter (fun r => r.sujet_id == 1)))).map
        ActionRow.id ∧
     ∀ r ∈ fxStoreOrphan.actions.filter (fun r => r.sujet_id == 1),
      actionIsRoot (fxStoreOrphan.actions.filter (fun r => r.sujet_id == 1)) r = true →
      r.id ∈ itemIds [ActionTreeItem.mk 1 1 "t" "r" "d" "nouvelle" none none none,
                      ActionTreeItem.mk 2 1 "u" "r" "d" "nouvelle" none none none]) :=
  ⟨rfl, orphan_rows_become_roots fxStoreOrphan 1
    ⟨1, [.mk 1 1 "t" "r" "d" "nouvelle" none none none,
         .mk 2 1 "u" "r" "d" "nouvelle" none none none]⟩ rfl⟩


/-- A strictly pairwise-increasing id list satisfies the boolean check. -/
theorem strictAsc_of_pairwise : ∀ (l : List Nat), l.Pairwise (· < ·) → strictAsc l = true
  | [], _ => rfl
  | [_], _ => rfl
  | a :: b :: t, h => by
    have h1 := List.pairwise_cons.mp h
    simp only [strictAsc, Bool.and_eq_true, decide_eq_true_eq]
    exact ⟨h1.1 b (List.mem_cons_self b t),
           strictAsc_of_pairwise (b :: t) h1.2⟩

/-- Ids of a filtered sublist of rows stay pairwise increasing (generic in
the row type and id projection). -/
theorem pairwise_ids_filter {α : Type} (idOf : α → Nat) (p : α → Bool) (l : List α)
    (h : (l.map idOf).Pairwise (· < ·)) :
    ((l.filter p).map idOf).Pairwise (· < ·) :=
  h.sublist (List.Sublist.map idOf (List.filter_sublist l))

/-- A list is `goodActionItems` when each element is. -/
theorem goodActionItems_of_forall (l : List ActionTreeItem)
    (h : ∀ c ∈ l, goodActionItem c = true) : goodActionItems l = true := by
  induction l with
  | nil => rfl
  | cons c cs ih =>
    simp only [goodActionItems, Bool.and_eq_true]
    exact ⟨h c (List.mem_cons_self c cs), ih fun x hx => h x (List.mem_cons_of_mem c hx)⟩

/-- A list is `goodSujetNodes` when each element is. -/
theorem goodSujetNodes_of_forall (l : List SujetTreeNode)
    (h : ∀ c ∈ l, goodSujetNode c = true) : goodSujetNodes l = true := by
  induction l with
  | nil => rfl
  | cons c cs ih =>
    simp only [goodSujetNodes, Bool.and_eq_true]
    exact ⟨h c (List.mem_cons_self c cs), ih fun x hx => h x (List.mem_cons_of_mem c hx)⟩

/-- A list is `goodActionV2Outs` when each element is. -/
theorem goodActionV2Outs_of_forall (l : List ActionV2Out)
    (h : ∀ c ∈ l, goodActionV2Out c = true) : goodActionV2Outs l = true := by
  induction l with
  | nil => rfl
  | cons c cs ih =>
    simp only [goodActionV2Outs, Bool.and_eq_true]
    exact ⟨h c (List.mem_cons_self c cs), ih fun x hx => h x (List.mem_cons_of_mem c hx)⟩

/-- A list is `goodSujetNodeOuts` when each element is. -/
theorem goodSujetNodeOuts_of_forall (l : List SujetNodeOut)
    (h : ∀ c ∈ l, goodSujetNodeOut c = true) : goodSujetNodeOuts l = true := by
  induction l with
  | nil => rfl
  | cons c cs ih =>
    simp only [goodSujetNodeOuts, Bool.and_eq_true]
    exact ⟨h c (List.mem_cons_self c cs), ih fun x hx => h x (List.mem_cons_of_mem c hx)⟩

/-- The 2.0.0 action builder renders well-formed items whenever the loaded
rows are in ascending id order. -/
theorem buildActionItem_good (rows : List ActionRow)
    (hs : (rows.map ActionRow.id).Pairwise (· < ·)) :
    ∀ (fuel : Nat) (r : ActionRow), goodActionItem (buildActionItem rows fuel r) = true := by
  intro fuel
  induction fuel with
  | zero => intro r; rfl
  | succ fuel ih =>
    intro r
    simp only [buildActionItem]
    cases he : ((actionChildRows rows r.id).map (buildActionItem rows fuel)).isEmpty with
    | true => simp only [he, if_true, goodActionItem]
    | false =>
      simp only [he, Bool.false_eq_true, if_false, goodActionItem, Bool.and_eq_true]
      refine ⟨⟨by simp [he], ?_⟩, goodActionItems_of_forall _ fun c hc => ?_⟩
      · have hids : itemIds ((actionChildRows rows r.id).map (buildActionItem rows fuel)) =
            (actionChildRows rows r.id).map ActionRow.id := by
          simp only [itemIds, List.map_map]
          exact List.map_congr_left fun x _ => buildActionItem_id rows fuel x
        rw [hids]
        exact strictAsc_of_pairwise _
          (pairwise_ids_filter ActionRow.id _ rows hs)
      · obtain ⟨x, _, rfl⟩ := List.mem_map.mp hc
        exact ih x

/-- Same statement for the 2.0.0 sujet-tree builder. -/
theorem buildSujetNode_good (rows : List SujetRow)
    (hs : (rows.map SujetRow.id).Pairwise (· < ·)) :
    ∀ (fuel : Nat) (r : SujetRow), goodSujetNode (buildSujetNode rows fuel r) = true := by
  intro fuel
  induction fuel with
  | zero => intro r; rfl
  | succ fuel ih =>
    intro r
    simp only [buildSujetNode]
    cases he : ((sujetChildRows rows r.id).map (buildSujetNode rows fuel)).isEmpty with
    | true => simp only [he, if_true, goodSujetNode]
    | false =>
      simp only [he, Bool.false_eq_true, if_false, goodSujetNode, Bool.and_eq_true]
      refine ⟨⟨by simp [he], ?_⟩, goodSujetNodes_of_forall _ fun c hc => ?_⟩
      · have hid : ∀ (f : Nat) (x : SujetRow), (buildSujetNode rows f x).id = x.id := by
          intro f x; cases f <;> rfl
        have hids : sujetNodeIds ((sujetChildRows rows r.id).map (buildSujetNode rows fuel)) =
            (sujetChildRows rows r.id).map SujetRow.id := by
          simp only [sujetNodeIds, List.map_map]
          exact List.map_congr_left fun x _ => hid fuel x
        rw [hids]
        exact strictAsc_of_pairwise _
          (pairwise_ids_filter SujetRow.id _ rows hs)
      · obtain ⟨x, _, rfl⟩ := List.mem_map.mp hc
        exact ih x

/-- Same statement for the `/v2` action builder. -/
theorem buildActionV2Out_good (rows : List ActionV2Row)
    (hs : (rows.map ActionV2Row.id).Pairwise (· < ·)) :
    ∀ (fuel : Nat) (r : ActionV2Row), goodActionV2Out (buildActionV2Out rows fuel r) = true := by
  intro fuel
  induction fuel with
  | zero => intro r; rfl
  | succ fuel ih =>
    intro r
    simp only [buildActionV2Out]
    cases he : ((actionV2ChildRows rows (some r.id)).map (buildActionV2Out rows fuel)).isEmpty with
    | true => simp only [he, if_true, goodActionV2Out]
    | false =>
      simp only [he, Bool.false_eq_true, if_false, goodActionV2Out, Bool.and_eq_true]
      refine ⟨⟨by simp [he], ?_⟩, goodActionV2Outs_of_forall _ fun c hc => ?_⟩
      · have hid : ∀ (f : Nat) (x : ActionV2Row), (buildActionV2Out rows f x).id = x.id := by
          intro f x; cases f <;> rfl
        have hids : actionV2OutIds
              ((actionV2ChildRows rows (some r.id)).map (buildActionV2Out rows fuel)) =
            (actionV2ChildRows rows (some r.id)).map ActionV2Row.id := by
          simp only [actionV2OutIds, List.map_map]
          exact List.map_congr_left fun x _ => hid fuel x
        rw [hids]
        exact strictAsc_of_pairwise _
          (pairwise_ids_filter ActionV2Row.id _ rows hs)
      · obtain ⟨x, _, rfl⟩ := List.mem_map.mp hc
        exact ih x

/-- Same statement for the `/v2` sujet builder. -/
theorem buildSujetV2Out_good (rows : List SujetV2Row)
    (hs : (rows.map SujetV2Row.id).Pairwise (· < ·)) :
    ∀ (fuel : Nat) (r : SujetV2Row), goodSujetNodeOut (buildSujetV2Out rows fuel r) = true := by
  intro fuel
  induction fuel with
  | zero => intro r; rfl
  | succ fuel ih =>
    intro r
    simp only [buildSujetV2Out]
    cases he : ((sujetV2ChildRows rows (some r.id)).map (buildSujetV2Out rows fuel)).isEmpty with
    | true => simp only [he, if_true, goodSujetNodeOut]
    | false =>
      simp only [he, Bool.false_eq_true, if_false, goodSujetNodeOut, Bool.and_eq_true]
      refine ⟨⟨by simp [he], ?_⟩, goodSujetNodeOuts_of_forall _ fun c hc => ?_⟩
      · have hid : ∀ (f : Nat) (x : SujetV2Row), (buildSujetV2Out rows f x).id = x.id := by
          intro f x; cases f <;> rfl
        have hids : sujetNodeOutIds
              ((sujetV2ChildRows rows (some r.id)).map (buildSujetV2Out rows fuel)) =
            (sujetV2ChildRows rows (some r.id)).map SujetV2Row.id := by
          simp only [sujetNodeOutIds, List.map_map]
          exact List.map_congr_left fun x _ => hid fuel x
        rw [hids]
        exact strictAsc_of_pairwise _
          (pairwise_ids_filter SujetV2Row.id _ rows hs)
      · obtain ⟨x, _, rfl⟩ := List.mem_map.mp hc
        exact ih x


/-- Ids of the rendered sous-sous-action items are the filtered row ids. -/
theorem ssaItemsOf_ids (st : Store17) (sid : Nat) :
    (ssaItemsOf st sid).map SousSousActionTreeItem.sous_sous_action_id =
      (st.sous_sous_actions.filter (fun r => r.sous_action_id == sid)).map
        SousSousActionRow.id := by
  simp only [ssaItemsOf, List.map_map]
  exact List.map_congr_left fun x _ => rfl

/-- Ids of the rendered sous-action items are the filtered row ids. -/
theorem saItemsOf_ids (st : Store17) (aid : Nat) :
    (saItemsOf st aid).map SousActionTreeItem.sous_action_id =
      (st.sous_actions.filter (fun r => r.action_id == aid)).map SousActionRow.id := by
  simp only [saItemsOf, List.map_map]
  exact List.map_congr_left fun x _ => rfl

/-- Ids of the rendered 1.7.0 action items are the filtered row ids. -/
theorem actionItemsOf_ids (st : Store17) (ssid : Nat) :
    (actionItemsOf st ssid).map ActionTreeItem17.action_id =
      (st.actions.filter (fun r => r.id_sous_sujet == ssid)).map Action17Row.id := by
  simp only [actionItemsOf, List.map_map]
  exact List.map_congr_left fun x _ => rfl

/-- Every rendered sous-action item is well-formed when the
`sous_sous_action` table is in ascending id order. -/
theorem saItemsOf_good (st : Store17) (aid : Nat)
    (hssa : (st.sous_sous_actions.map SousSousActionRow.id).Pairwise (· < ·)) :
    ∀ x ∈ saItemsOf st aid, good17SA x = true := by
  intro x hx
  obtain ⟨r, _, rfl⟩ := List.mem_map.mp hx
  simp only [good17SA]
  cases he : (ssaItemsOf st r.id).isEmpty with
  | true => simp [he]
  | false =>
    simp only [he, Bool.false_eq_true, if_false, Bool.and_eq_true]
    refine ⟨by simp [he], ?_⟩
    rw [ssaItemsOf_ids]
    exact strictAsc_of_pairwise _
      (pairwise_ids_filter SousSousActionRow.id _ st.sous_sous_actions hssa)

/-- Every rendered 1.7.0 action item is well-formed when the `sous_action`
and `sous_sous_action` tables are in ascending id order. -/
theorem actionItemsOf_good (st : Store17) (ssid : Nat)
    (hsa : (st.sous_actions.map SousActionRow.id).Pairwise (· < ·))
    (hssa : (st.sous_sous_actions.map SousSousActionRow.id).Pairwise (· < ·)) :
    ∀ a ∈ actionItemsOf st ssid, good17Action a = true := by
  intro a ha
  obtain ⟨r, _, rfl⟩ := List.mem_map.mp ha
  simp only [good17Action]
  cases he : (saItemsOf st r.id).isEmpty with
  | true => simp [he]
  | false =>
    simp only [he, Bool.false_eq_true, if_false, Bool.and_eq_true]
    refine ⟨⟨by simp [he], ?_⟩, ?_⟩
    · rw [saItemsOf_ids]
      exact strictAsc_of_pairwise _
        (pairwise_ids_filter SousActionRow.id _ st.sous_actions hsa)
    · exact List.all_eq_true.mpr fun x hx => saItemsOf_good st r.id hssa x hx

/-- C9: every modelled tree read endpoint renders each node's children in
ascending server-assigned id order, and a childless node carries the
absent-children marker (`children = None`) rather than a list, given rows
loaded in the `ORDER BY id ASC` order (the tables are stored in ascending
id order). -/
theorem tree_reads_children_sorted_nullable :
    (∀ (st : StoreV2) (sujet_id : Nat) (out : ActionsTreeOut),
      (st.actions.map ActionRow.id).Pairwise (· < ·) →
      list_actions_tree_by_sujet st sujet_id = Except.ok out →
      strictAsc (itemIds out.items) = true ∧ goodActionItems out.items = true) ∧
    (∀ (st : StoreV2) (root_id : Nat) (out : SujetTreeOut),
      (st.sujets.map SujetRow.id).Pairwise (· < ·) →
      get_sujet_tree st root_id = Except.ok out →
      goodSujetNode out.tree = true) ∧
    (∀ (st : StoreDb2) (sujet_id : Nat) (outs : List ActionV2Out),
      (st.actions.map ActionV2Row.id).Pairwise (· < ·) →
      get_actions_tree_v2 st sujet_id = Except.ok outs →
      strictAsc (actionV2OutIds outs) = true ∧ goodActionV2Outs outs = true) ∧
    (∀ (st : StoreDb2) (root_id : Nat) (out : SujetNodeOut),
      (st.sujets.map SujetV2Row.id).Pairwise (· < ·) →
      get_sujet_tree_v2 st root_id = Except.ok out →
      goodSujetNodeOut out = true) ∧
    (∀ (st : Store17) (sujet_id : Nat) (resp : ActionsTreeOutResp),
      (st.sous_actions.map SousActionRow.id).Pairwise (· < ·) →
      (st.sous_sous_actions.map SousSousActionRow.id).Pairwise (· < ·) →
      list_actions_by_sujet st sujet_id = Except.ok resp →
      resp.actions.all good17Action = true) ∧
    (∀ (st : Store17) (sujet_id : Nat) (out : SujetTreeOut17),
      (st.sous_sujets.map SousSujetRow.id).Pairwise (· < ·) →
      (st.actions.map Action17Row.id).Pairwise (· < ·) →
      (st.sous_actions.map SousActionRow.id).Pairwise (· < ·) →
      (st.sous_sous_actions.map SousSousActionRow.id).Pairwise (· < ·) →
      get_full_tree_by_sujet st sujet_id = Except.ok out →
      strictAsc (out.sous_sujets.map SousSujetTreeItem.sous_sujet_id) = true ∧
      out.sous_sujets.all good17SousSujet = true) := by
  refine ⟨?_, ?_, ?_, ?_, ?_, ?_⟩
  · intro st sujet_id out hsorted h
    unfold list_actions_tree_by_sujet at h
    by_cases hs : (st.sujets.find? (fun s => s.id == sujet_id)).isNone
    · simp [hs] at h
    · simp only [hs, Bool.false_eq_true, if_false, Except.ok.injEq] at h
      subst h
      have hrows : ((st.actions.filter (fun r => r.sujet_id == sujet_id)).map
          ActionRow.id).Pairwise (· < ·) :=
        pairwise_ids_filter ActionRow.id _ st.actions hsorted
      constructor
      · have : itemIds (((st.actions.filter (fun r => r.sujet_id == sujet_id)).filter
            (actionIsRoot (st.actions.filter (fun r => r.sujet_id == sujet_id)))).map
              (buildActionItem (st.actions.filter (fun r => r.sujet_id == sujet_id))
                (st.actions.filter (fun r => r.sujet_id == sujet_id)).length)) =
            ((st.actions.filter (fun r => r.sujet_id == sujet_id)).filter
              (actionIsRoot (st.actions.filter (fun r => r.sujet_id == sujet_id)))).map
              ActionRow.id := by
          simp only [itemIds, List.map_map]
          exact List.map_congr_left fun x _ => buildActionItem_id _ _ x
        rw [this]
        exact strictAsc_of_pairwise _ (pairwise_ids_filter ActionRow.id _ _ hrows)
      · refine goodActionItems_of_forall _ fun c hc => ?_
        obtain ⟨x, _, rfl⟩ := List.mem_map.mp hc
        exact buildActionItem_good _ hrows _ x
  · intro st root_id out hsorted h
    unfold get_sujet_tree at h
    cases hf : st.sujets.find? (fun s => s.id == root_id) with
    | none => rw [hf] at h; simp at h
    | some rootRow =>
      rw [hf] at h
      simp only [Except.ok.injEq] at h
      subst h
      exact buildSujetNode_good _ (pairwise_ids_filter SujetRow.id _ st.sujets hsorted) _ _
  · intro st sujet_id outs hsorted h
    unfold get_actions_tree_v2 at h
    by_cases hs : (st.sujets.find? (fun s => s.id == sujet_id)).isNone
    · simp [hs] at h
    · simp only [hs, Bool.false_eq_true, if_false, Except.ok.injEq] at h
      subst h
      have hrows : ((st.actions.filter (fun r => r.sujet_id == sujet_id)).map
          ActionV2Row.id).Pairwise (· < ·) :=
        pairwise_ids_filter ActionV2Row.id _ st.actions hsorted
      constructor
      · have hid : ∀ (f : Nat) (x : ActionV2Row),
            (buildActionV2Out (st.actions.filter (fun r => r.sujet_id == sujet_id)) f x).id =
              x.id := by
          intro f x; cases f <;> rfl
        have : actionV2OutIds ((actionV2ChildRows
              (st.actions.filter (fun r => r.sujet_id == sujet_id)) none).map
              (buildActionV2Out (st.actions.filter (fun r => r.sujet_id == sujet_id))
                (st.actions.filter (fun r => r.sujet_id == sujet_id)).length)) =
            (actionV2ChildRows (st.actions.filter (fun r => r.sujet_id == sujet_id))
              none).map ActionV2Row.id := by
          simp only [actionV2OutIds, List.map_map]
          exact List.map_congr_left fun x _ => hid _ x
        rw [this]
        exact strictAsc_of_pairwise _ (pairwise_ids_filter ActionV2Row.id _ _ hrows)
      · refine goodActionV2Outs_of_forall _ fun c hc => ?_
        obtain ⟨x, _, rfl⟩ := List.mem_map.mp hc
        exact buildActionV2Out_good _ hrows _ x
  · intro st root_id out hsorted h
    unfold get_sujet_tree_v2 at h
    cases hf : st.sujets.find? (fun s => s.id == root_id) with
    | none => rw [hf] at h; simp at h
    | some head =>
      rw [hf] at h
      simp only [Except.ok.injEq] at h
      subst h
      exact buildSujetV2Out_good _ (pairwise_ids_filter SujetV2Row.id _ st.sujets hsorted) _ _
  · intro st sujet_id resp hsa hssa h
    unfold list_actions_by_sujet at h
    by_cases hs : (st.sujets.find? (fun s => s.id == sujet_id)).isNone
    · simp [hs] at h
    · simp only [hs, Bool.false_eq_true, if_false, Except.ok.injEq] at h
      subst h
      refine List.all_eq_true.mpr fun a ha => ?_
      obtain ⟨ssid, _, hmem⟩ := List.mem_flatMap.mp ha
      exact actionItemsOf_good st ssid hsa hssa a hmem
  · intro st sujet_id out hss hact hsa hssa h
    unfold get_full_tree_by_sujet at h
    by_cases hs : (st.sujets.find? (fun s => s.id == sujet_id)).isNone
    · simp [hs] at h
    · simp only [hs, Bool.false_eq_true, if_false, Except.ok.injEq] at h
      subst h
      constructor
      · have : ((st.sous_sujets.filter (fun ss => ss.sujet_id == sujet_id)).map fun ss =>
              (⟨ss.id, ss.titre,
                if (actionItemsOf st ss.id).isEmpty then none
                else some (actionItemsOf st ss.id)⟩ : SousSujetTreeItem)).map
              SousSujetTreeItem.sous_sujet_id =
            (st.sous_sujets.filter (fun ss => ss.sujet_id == sujet_id)).map
              SousSujetRow.id := by
          simp only [List.map_map]
          exact List.map_congr_left fun x _ => rfl
        rw [this]
        exact strictAsc_of_pairwise _
          (pairwise_ids_filter SousSujetRow.id _ st.sous_sujets hss)
      · refine List.all_eq_true.mpr fun ssItem hssItem => ?_
        obtain ⟨ss, _, rfl⟩ := List.mem_map.mp hssItem
        simp only [good17SousSujet]
        cases he : (actionItemsOf st ss.id).isEmpty with
        | true => simp [he]
        | false =>
          simp only [he, Bool.false_eq_true, if_false, Bool.and_eq_true]
          refine ⟨⟨by simp [he], ?_⟩, ?_⟩
          · rw [actionItemsOf_ids]
            exact strictAsc_of_pairwise _
              (pairwise_ids_filter Action17Row.id _ st.actions hact)
          · exact List.all_eq_true.mpr fun a ha => actionItemsOf_good st ss.id hsa hssa a ha


/-- Witness for C9: the six readers applied to concrete populated stores;
every children list is ascending and every childless node carries the
absent marker. -/
theorem tree_reads_children_sorted_nullable_witness :
    ((fxStoreOrphan.actions.map ActionRow.id).Pairwise (· < ·) ∧
     strictAsc (itemIds fxItemsOrphan) = true ∧ goodActionItems fxItemsOrphan = true) ∧
    goodSujetNode (SujetTreeNode.mk 1 "a" (some [.mk 3 "c" none])) = true ∧
    (strictAsc (actionV2OutIds fxV2Outs) = true ∧ goodActionV2Outs fxV2Outs = true) ∧
    goodSujetNodeOut fxSujetOutV2 = true ∧
    [fx17Action].all good17Action = true ∧
    (strictAsc ([(⟨1, "ss", some [fx17Action]⟩ : SousSujetTreeItem)].map
        SousSujetTreeItem.sous_sujet_id) = true ∧
     [(⟨1, "ss", some [fx17Action]⟩ : SousSujetTreeItem)].all good17SousSujet = true) := by
  refine ⟨⟨by decide, ?_, ?_⟩, ?_, ?_, ?_, ?_, ?_⟩
  · exact (tree_reads_children_sorted_nullable.1 fxStoreOrphan 1 ⟨1, fxItemsOrphan⟩
      (by decide) rfl).1
  · exact (tree_reads_children_sorted_nullable.1 fxStoreOrphan 1 ⟨1, fxItemsOrphan⟩
      (by decide) rfl).2
  · exact tree_reads_children_sorted_nullable.2.1 fxStoreOrphan 1
      ⟨1, .mk 1 "a" (some [.mk 3 "c" none])⟩ (by decide) rfl
  · exact ⟨(tree_reads_children_sorted_nullable.2.2.1 fxDb2WithActions 1 fxV2Outs
        (by decide) rfl).1,
      (tree_reads_children_sorted_nullable.2.2.1 fxDb2WithActions 1 fxV2Outs
        (by decide) rfl).2⟩
  · exact tree_reads_children_sorted_nullable.2.2.2.1 fxDb2WithSujets 2 fxSujetOutV2
      (by decide) rfl
  · exact tree_reads_children_sorted_nullable.2.2.2.2.1 fxStore17Filled 1 ⟨1, [fx17Action]⟩
      (by decide) (by decide) rfl
  · exact ⟨(tree_reads_children_sorted_nullable.2.2.2.2.2 fxStore17Filled 1
        ⟨1, [⟨1, "ss", some [fx17Action]⟩]⟩ (by decide) (by decide) (by decide) (by decide)
        rfl).1,
      (tree_reads_children_sorted_nullable.2.2.2.2.2 fxStore17Filled 1
        ⟨1, [⟨1, "ss", some [fx17Action]⟩]⟩ (by decide) (by decide) (by decide) (by decide)
        rfl).2⟩


/-! ### Round-trip machinery for C1: structure of the generated rows -/

/-- Every payload subtree inserts at least its own row. -/
theorem sizeT_pos : ∀ (t : ActionTreeIn), 0 < sizeT t
  | .mk _ _ _ _ _ _ none => by simp [sizeT]
  | .mk _ _ _ _ _ _ (some _) => by simp [sizeT]

/-- `sizeT` through `childrenList`. -/
theorem sizeT_eq_children : ∀ (t : ActionTreeIn), sizeT t = 1 + sizeF (childrenList t)
  | .mk _ _ _ _ _ _ none => by simp [sizeT, childrenList, sizeF]
  | .mk _ _ _ _ _ _ (some _) => by simp [sizeT, childrenList]

/-- A member's size is bounded by the forest size. -/
theorem sizeT_le_sizeF : ∀ (ts : List ActionTreeIn), ∀ c ∈ ts, sizeT c ≤ sizeF ts := by
  intro ts
  induction ts with
  | nil => intro c hc; simp at hc
  | cons a as ih =>
    intro c hc
    rcases List.mem_cons.mp hc with h | h
    · subst h
      simp only [sizeF]
      omega
    · have := ih c h
      simp only [sizeF]
      omega

/-- The generated rows are the node's own row followed by its children's
rows. -/
theorem rowsT_struct (sid : Nat) (p : Option Nat) (n : Nat) :
    ∀ (t : ActionTreeIn),
      rowsT sid p n t = hdRow sid p n t :: rowsF sid (some n) (n + 1) (childrenList t)
  | .mk _ _ _ _ _ _ none => by simp [rowsT, hdRow, childrenList, rowsF]
  | .mk _ _ _ _ _ _ (some _) => by simp [rowsT, hdRow, childrenList]

/-- The response node through `childrenList`. -/
theorem outT_eq (n : Nat) :
    ∀ (t : ActionTreeIn),
      outT n t = .mk n (if (childrenList t).isEmpty then none
                        else some (outF (n + 1) (childrenList t)))
  | .mk _ _ _ _ _ _ none => by simp [outT, childrenList]
  | .mk _ _ _ _ _ _ (some cs) => by
      cases cs <;> simp [outT, childrenList]


/-! ### The failure-free inserter in closed form -/

mutual

/-- With no database failure, `insert_node` appends exactly `rowsT` and
reports `outT`, consuming `sizeT` ids. -/
theorem insert_node_noFail : ∀ (sid : Nat) (t : ActionTreeIn) (p : Option Nat) (st : StoreV2),
    insert_node noFail sid t p st =
      Except.ok (outT st.nextActionId t,
        { st with
            actions := st.actions ++ rowsT sid p st.nextActionId t,
            nextActionId := st.nextActionId + sizeT t })
  | sid, .mk task resp due status pl ps children, p, st => by
    cases children with
    | none =>
      simp [insert_node, noFail, outT, rowsT, sizeT]
    | some cs =>
      cases cs with
      | nil =>
        simp [insert_node, noFail, outT, rowsT, rowsF, sizeT, sizeF]
      | cons c rest =>
        have hrec := insert_children_noFail sid (c :: rest) st.nextActionId
          { st with
              actions := st.actions ++
                [{ id := st.nextActionId, sujet_id := sid, task := task,
                   responsible := resp, due_date := due, status := status,
                   product_line := pl, plant_site := ps, parent_action_id := p }],
              nextActionId := st.nextActionId + 1 }
        simp only [insert_node, noFail, Bool.false_eq_true, if_false, List.isEmpty_cons,
          bind, Except.bind, hrec]
        simp [outT, rowsT, sizeT, List.append_assoc, Nat.add_assoc]
        simp [outF]

/-- With no database failure, `insert_children` appends exactly `rowsF` and
reports `outF`. -/
theorem insert_children_noFail : ∀ (sid : Nat) (ts : List ActionTreeIn) (pid : Nat)
    (st : StoreV2),
    insert_children noFail sid ts pid st =
      Except.ok (outF st.nextActionId ts,
        { st with
            actions := st.actions ++ rowsF sid (some pid) st.nextActionId ts,
            nextActionId := st.nextActionId + sizeF ts })
  | sid, [], pid, st => by
    simp [insert_children, outF, rowsF, sizeF]
  | sid, c :: rest, pid, st => by
    have h1 := insert_node_noFail sid c (some pid) st
    simp only [insert_children, bind, Except.bind, h1]
    have h2 := insert_children_noFail sid rest pid
      { st with
          actions := st.actions ++ rowsT sid (some pid) st.nextActionId c,
          nextActionId := st.nextActionId + sizeT c }
    simp only [h2]
    simp [outF, rowsF, sizeF, List.append_assoc, Nat.add_assoc]

end


/-- With no database failure, the root loop appends exactly the
`parent = None` rows. -/
theorem insert_roots_noFail (sid : Nat) : ∀ (ts : List ActionTreeIn) (st : StoreV2),
    insert_roots noFail sid ts st =
      Except.ok (outF st.nextActionId ts,
        { st with
            actions := st.actions ++ rowsF sid none st.nextActionId ts,
            nextActionId := st.nextActionId + sizeF ts }) := by
  intro ts
  induction ts with
  | nil => intro st; simp [insert_roots, outF, rowsF, sizeF]
  | cons c rest ih =>
    intro st
    have h1 := insert_node_noFail sid c none st
    simp only [insert_roots, bind, Except.bind, h1]
    rw [ih]
    simp [outF, rowsF, sizeF, List.append_assoc, Nat.add_assoc]

/-- `POST /actions/bulk` in closed form when the sujet exists and no insert
fails. -/
theorem create_actions_bulk_noFail (st : StoreV2) (p : ActionsBulkIn)
    (hsuj : (st.sujets.find? (fun s => s.id == p.sujet_id)).isSome) :
    create_actions_bulk noFail st p =
      (Except.ok ⟨p.sujet_id, outF st.nextActionId p.items⟩,
       { st with
           actions := st.actions ++ rowsF p.sujet_id none st.nextActionId p.items,
           nextActionId := st.nextActionId + sizeF p.items }) := by
  have hc : (st.sujets.find? (fun s => s.id == p.sujet_id)).isNone = false := by
    cases h : st.sujets.find? (fun s => s.id == p.sujet_id) with
    | none => rw [h] at hsuj; simp at hsuj
    | some a => rfl
  unfold create_actions_bulk
  rw [hc]
  simp only [Bool.false_eq_true, if_false, insert_roots_noFail]

/-! ### Membership facts about the generated rows -/

mutual

/-- Every generated row belongs to the request's sujet. -/
theorem rowsT_mem_sujet (sid : Nat) : ∀ (t : ActionTreeIn) (p : Option Nat) (n : Nat),
    ∀ r ∈ rowsT sid p n t, r.sujet_id = sid
  | .mk task resp due status pl ps none, p, n => by
    intro r hr
    simp only [rowsT] at hr
    simp at hr
    subst hr
    rfl
  | .mk task resp due status pl ps (some cs), p, n => by
    intro r hr
    simp only [rowsT] at hr
    rcases List.mem_cons.mp hr with h | h
    · subst h; rfl
    · exact rowsF_mem_sujet sid cs (some n) (n + 1) r h

theorem rowsF_mem_sujet (sid : Nat) : ∀ (ts : List ActionTreeIn) (p : Option Nat) (n : Nat),
    ∀ r ∈ rowsF sid p n ts, r.sujet_id = sid
  | [], p, n => by intro r hr; simp [rowsF] at hr
  | c :: cs, p, n => by
    intro r hr
    simp only [rowsF] at hr
    rcases List.mem_append.mp hr with h | h
    · exact rowsT_mem_sujet sid c p n r h
    · exact rowsF_mem_sujet sid cs p (n + sizeT c) r h

end

mutual

/-- The generated row ids are exactly the consecutive block starting at the
first fresh id, in insertion order. -/
theorem rowsT_ids (sid : Nat) : ∀ (t : ActionTreeIn) (p : Option Nat) (n : Nat),
    (rowsT sid p n t).map ActionRow.id = List.range' n (sizeT t)
  | .mk task resp due status pl ps none, p, n => by
    simp [rowsT, sizeT]
  | .mk task resp due status pl ps (some cs), p, n => by
    simp only [rowsT, sizeT, List.map_cons]
    rw [rowsF_ids sid cs (some n) (n + 1)]
    rw [Nat.add_comm 1 (sizeF cs), List.range'_succ]
  
theorem rowsF_ids (sid : Nat) : ∀ (ts : List ActionTreeIn) (p : Option Nat) (n : Nat),
    (rowsF sid p n ts).map ActionRow.id = List.range' n (sizeF ts)
  | [], p, n => by simp [rowsF, sizeF]
  | c :: cs, p, n => by
    simp only [rowsF, sizeF, List.map_append]
    rw [rowsT_ids sid c p n, rowsF_ids sid cs p (n + sizeT c),
        Nat.add_comm (sizeT c) (sizeF cs)]
    exact List.range'_append_1 n (sizeT c) (sizeF cs)

end

mutual

/-- Every generated row's parent is the subtree's entry parent or an id
inside the subtree's id block. -/
theorem rowsT_mem_parent (sid : Nat) : ∀ (t : ActionTreeIn) (p : Option Nat) (n : Nat),
    ∀ r ∈ rowsT sid p n t,
      r.parent_action_id = p ∨
        ∃ q, r.parent_action_id = some q ∧ n ≤ q ∧ q < n + sizeT t
  | .mk task resp due status pl ps none, p, n => by
    intro r hr
    simp only [rowsT] at hr
    simp at hr
    subst hr
    exact Or.inl rfl
  | .mk task resp due status pl ps (some cs), p, n => by
    intro r hr
    simp only [rowsT] at hr
    rcases List.mem_cons.mp hr with h | h
    · subst h; exact Or.inl rfl
    · rcases rowsF_mem_parent sid cs (some n) (n + 1) r h with h1 | ⟨q, hq, h2, h3⟩
      · refine Or.inr ⟨n, h1, Nat.le_refl n, ?_⟩
        have := sizeT_pos (ActionTreeIn.mk task resp due status pl ps (some cs))
        omega
      · refine Or.inr ⟨q, hq, by omega, ?_⟩
        simp only [sizeT]
        omega

theorem rowsF_mem_parent (sid : Nat) : ∀ (ts : List ActionTreeIn) (p : Option Nat) (n : Nat),
    ∀ r ∈ rowsF sid p n ts,
      r.parent_action_id = p ∨
        ∃ q, r.parent_action_id = some q ∧ n ≤ q ∧ q < n + sizeF ts
  | [], p, n => by intro r hr; simp [rowsF] at hr
  | c :: cs, p, n => by
    intro r hr
    simp only [rowsF] at hr
    rcases List.mem_append.mp hr with h | h
    · rcases rowsT_mem_parent sid c p n r h with h1 | ⟨q, hq, h2, h3⟩
      · exact Or.inl h1
      · refine Or.inr ⟨q, hq, h2, ?_⟩
        simp only [sizeF]
        omega
    · rcases rowsF_mem_parent sid cs p (n + sizeT c) r h with h1 | ⟨q, hq, h2, h3⟩
      · exact Or.inl h1
      · refine Or.inr ⟨q, hq, by omega, ?_⟩
        simp only [sizeF]
        omega

end


/-! ### Which generated rows the Tree Builder attaches under a given key -/

mutual

/-- For a key outside the subtree's id block, the only generated row the
builder can attach under it is the subtree's head (when the entry parent is
that key). -/
theorem childRows_rowsT_out (sid : Nat) : ∀ (t : ActionTreeIn) (p : Option Nat) (n k : Nat),
    k ≠ 0 → ¬(n ≤ k ∧ k < n + sizeT t) →
    actionChildRows (rowsT sid p n t) k =
      (if p == some k then [hdRow sid p n t] else [])
  | .mk task resp due status pl ps none, p, n, k => by
    intro hk0 _
    simp only [rowsT, actionChildRows, List.filter, hdRow]
    cases p with
    | none => simp
    | some q =>
      by_cases hq : q = k
      · subst hq
        have : (q == 0) = false := by simpa using hk0
        simp [this]
      · have hqf : (q == k) = false := by simpa using hq
        simp [hqf, hq]
  | .mk task resp due status pl ps (some cs), p, n, k => by
    intro hk0 hout
    have hsz : sizeT (ActionTreeIn.mk task resp due status pl ps (some cs)) =
        1 + sizeF cs := by simp [sizeT]
    have htail := childRows_rowsF_out sid cs (some n) (n + 1) k hk0 (by omega)
    have hkn : (n == k) = false := by
      have : k ≠ n := by omega
      simpa using Ne.symm this
    simp only [rowsT, actionChildRows, List.filter] at *
    cases p with
    | none =>
      simp only []
      rw [htail]
      simp [hkn]
    | some q =>
      by_cases hq : q = k
      · subst hq
        have hz : (q == 0) = false := by simpa using hk0
        rw [htail]
        simp [hz, hkn, hdRow]
      · have : (q == k) = false := by simpa using hq
        rw [htail]
        simp [this, hkn, hq]

theorem childRows_rowsF_out (sid : Nat) : ∀ (ts : List ActionTreeIn) (p : Option Nat) (n k : Nat),
    k ≠ 0 → ¬(n ≤ k ∧ k < n + sizeF ts) →
    actionChildRows (rowsF sid p n ts) k =
      (if p == some k then hdRowsF sid p n ts else [])
  | [], p, n, k => by
    intro _ _
    simp [rowsF, hdRowsF, actionChildRows]
  | c :: cs, p, n, k => by
    intro hk0 hout
    have hsz : sizeF (c :: cs) = sizeT c + sizeF cs := by simp [sizeF]
    have h1 := childRows_rowsT_out sid c p n k hk0 (by omega)
    have h2 := childRows_rowsF_out sid cs p (n + sizeT c) k hk0 (by omega)
    simp only [rowsF, actionChildRows, List.filter_append] at *
    rw [h1, h2]
    by_cases hp : p == some k
    · simp [hp, hdRowsF]
    · simp [hp]

end

/-- The rows the builder attaches under a subtree's own head id are exactly
the head rows of its children, in payload order. -/
theorem childRows_rowsT_self (sid : Nat) (t : ActionTreeIn) (p : Option Nat) (n : Nat)
    (hn0 : n ≠ 0) (hp : ∀ q, p = some q → q < n) :
    actionChildRows (rowsT sid p n t) n = hdRowsF sid (some n) (n + 1) (childrenList t) := by
  rw [rowsT_struct]
  have htail := childRows_rowsF_out sid (childrenList t) (some n) (n + 1) n hn0 (by omega)
  simp only [actionChildRows, List.filter] at *
  have hhd : (match (hdRow sid p n t).parent_action_id with
      | some q => !(q == 0) && q == n
      | none => false) = false := by
    have : (hdRow sid p n t).parent_action_id = p := by
      cases t with
      | mk a b c d e f g => rfl
    rw [this]
    cases p with
    | none => rfl
    | some q =>
      have hq := hp q rfl
      have : (q == n) = false := by
        have : q ≠ n := by omega
        simpa using this
      simp [this]
  rw [hhd] at *
  simp only [Bool.false_eq_true, if_false]
  rw [htail]
  simp


/-! ### Roots of the loaded forest among the generated rows -/

mutual

/-- Against a loaded row set whose ids cover the subtree's id block (and
which resolves the entry parent), the root filter keeps exactly the
subtree's head when the entry parent is null, and nothing otherwise. -/
theorem rowsT_rootFilter (sid : Nat) (R : List ActionRow) :
    ∀ (t : ActionTreeIn) (p : Option Nat) (n : Nat),
      0 < n →
      (∀ q, p = some q → q ≠ 0 ∧ (R.map ActionRow.id).contains q = true) →
      (∀ k, n ≤ k → k < n + sizeT t → (R.map ActionRow.id).contains k = true) →
      (rowsT sid p n t).filter (actionIsRoot R) =
        (match p with | none => [hdRow sid p n t] | some _ => [])
  | .mk task resp due status pl ps none, p, n => by
    intro hn hpar hin
    have hhead : actionIsRoot R (hdRow sid p n
        (ActionTreeIn.mk task resp due status pl ps none)) =
        (match p with | none => true | some _ => false) := by
      simp only [actionIsRoot, hdRow]
      cases p with
      | none => rfl
      | some q =>
        obtain ⟨hq0, hqc⟩ := hpar q rfl
        have h1 : (q == 0) = false := by simpa using hq0
        have h2 : q ∈ R.map ActionRow.id := by simpa using hqc
        simp [h1, h2]
    rw [rowsT_struct]
    simp only [childrenList, rowsF, List.filter]
    rw [hhead]
    cases p with
    | none => rfl
    | some q => rfl
  | .mk task resp due status pl ps (some cs), p, n => by
    intro hn hpar hin
    have hsz : sizeT (ActionTreeIn.mk task resp due status pl ps (some cs)) =
        1 + sizeF cs := by simp [sizeT]
    have htail := rowsF_rootFilter sid R cs (some n) (n + 1)
      (by omega)
      (by
        intro q hq
        have hq2 : n = q := by simpa using hq
        subst hq2
        exact ⟨by omega, hin n (Nat.le_refl n) (by omega)⟩)
      (by
        intro k h1 h2
        exact hin k (by omega) (by omega))
    have hhead : actionIsRoot R (hdRow sid p n
        (ActionTreeIn.mk task resp due status pl ps (some cs))) =
        (match p with | none => true | some _ => false) := by
      simp only [actionIsRoot, hdRow]
      cases p with
      | none => rfl
      | some q =>
        obtain ⟨hq0, hqc⟩ := hpar q rfl
        have h1 : (q == 0) = false := by simpa using hq0
        have h2 : q ∈ R.map ActionRow.id := by simpa using hqc
        simp [h1, h2]
    rw [rowsT_struct]
    simp only [childrenList, List.filter]
    rw [hhead]
    cases p with
    | none =>
      simp only []
      rw [htail]
    | some q =>
      simp only []
      rw [htail]

theorem rowsF_rootFilter (sid : Nat) (R : List ActionRow) :
    ∀ (ts : List ActionTreeIn) (p : Option Nat) (n : Nat),
      0 < n →
      (∀ q, p = some q → q ≠ 0 ∧ (R.map ActionRow.id).contains q = true) →
      (∀ k, n ≤ k → k < n + sizeF ts → (R.map ActionRow.id).contains k = true) →
      (rowsF sid p n ts).filter (actionIsRoot R) =
        (match p with | none => hdRowsF sid p n ts | some _ => [])
  | [], p, n => by
    intro _ _ _
    cases p <;> simp [rowsF, hdRowsF]
  | c :: cs, p, n => by
    intro hn hpar hin
    have hsz : sizeF (c :: cs) = sizeT c + sizeF cs := by simp [sizeF]
    have h1 := rowsT_rootFilter sid R c p n hn hpar
      (fun k hk1 hk2 => hin k hk1 (by omega))
    have h2 := rowsF_rootFilter sid R cs p (n + sizeT c)
      (by omega) hpar (fun k hk1 hk2 => hin k (by omega) (by omega))
    simp only [rowsF, List.filter_append]
    rw [h1, h2]
    cases p with
    | none => simp [hdRowsF]
    | some q => simp

end

/-! ### Restriction (prune) facts -/

/-- `pruneItems` distributes over append. -/
theorem pruneItems_append (keep : Nat → Bool) :
    ∀ (a b : List ActionTreeItem),
      pruneItems keep (a ++ b) = pruneItems keep a ++ pruneItems keep b := by
  intro a
  induction a with
  | nil => intro b; simp [pruneItems]
  | cons c cs ih =>
    intro b
    cases c with
    | mk i s t r d st plv ps ch =>
      simp only [List.cons_append, pruneItems]
      by_cases hk : keep i
      · simp [hk, ih]
      · simp [hk, ih]

/-- `pruneItems` drops a forest none of whose roots are kept. -/
theorem pruneItems_drop (keep : Nat → Bool) :
    ∀ (l : List ActionTreeItem), (∀ x ∈ l, keep x.id = false) →
      pruneItems keep l = [] := by
  intro l
  induction l with
  | nil => intro _; simp [pruneItems]
  | cons c cs ih =>
    intro h
    cases c with
    | mk i s t r d st plv ps ch =>
      have hi : keep i = false := h _ (List.mem_cons_self _ _)
      simp only [pruneItems, hi, Bool.false_eq_true, if_false]
      exact ih fun x hx => h x (List.mem_cons_of_mem _ hx)

/-! ### Shape preservation between payload and response -/

mutual

/-- The bulk response mirrors the payload's branching shape. -/
theorem shapeOfOut_outT : ∀ (t : ActionTreeIn) (n : Nat), shapeOfOut (outT n t) = shapeOfIn t
  | .mk task resp due status pl ps none, n => by
    simp [outT, shapeOfOut, shapeOfIn]
  | .mk task resp due status pl ps (some cs), n => by
    cases cs with
    | nil => simp [outT, shapeOfOut, shapeOfIn, shapesOfIn]
    | cons c rest =>
      simp only [outT, List.isEmpty_cons, Bool.false_eq_true, if_false, shapeOfOut,
        shapeOfIn, Shape.mk.injEq]
      exact shapesOfOut_outF (c :: rest) (n + 1)

theorem shapesOfOut_outF : ∀ (ts : List ActionTreeIn) (n : Nat),
    shapesOfOut (outF n ts) = shapesOfIn ts
  | [], n => by simp [outF, shapesOfOut, shapesOfIn]
  | c :: cs, n => by
    simp only [outF, shapesOfOut, shapesOfIn, List.cons.injEq]
    exact ⟨shapeOfOut_outT c n, shapesOfOut_outF cs (n + sizeT c)⟩

end


/-- `pruneItems` on a kept head. -/
theorem pruneItems_cons_keep (keep : Nat → Bool) (x : ActionTreeItem)
    (xs : List ActionTreeItem) (hx : keep x.id = true) :
    pruneItems keep (x :: xs) = pruneItem keep x :: pruneItems keep xs := by
  cases x with
  | mk i s t r d st plv ps ch =>
    have hi : keep i = true := hx
    simp [pruneItems, pruneItem, hi]

/-- The attach filter distributes over append. -/
theorem actionChildRows_append (a b : List ActionRow) (k : Nat) :
    actionChildRows (a ++ b) k = actionChildRows a k ++ actionChildRows b k := by
  simp [actionChildRows]

/-- The attach filter skips a head row whose parent test fails. -/
theorem actionChildRows_cons_skip (r : ActionRow) (l : List ActionRow) (k : Nat)
    (h : (match r.parent_action_id with
          | some q => !(q == 0) && q == k
          | none => false) = false) :
    actionChildRows (r :: l) k = actionChildRows l k := by
  simp only [actionChildRows, List.filter_cons, h]
  simp

/-! ### The pruned rebuilt forest equals the bulk response -/

mutual

/-- Pruning the builder's rendering of a generated subtree's head back to
the request's ids yields exactly the bulk response subtree. -/
theorem buildItem_prune (L : List ActionRow) (keep : Nat → Bool) (sid : Nat) :
    ∀ (t : ActionTreeIn) (p : Option Nat) (n fuel : Nat),
      n ≠ 0 →
      (∀ q, p = some q → q < n) →
      (∀ k, n ≤ k → k < n + sizeT t →
        actionChildRows L k = actionChildRows (rowsT sid p n t) k) →
      sizeT t ≤ fuel →
      (∀ k, n ≤ k → k < n + sizeT t → keep k = true) →
      pruneItem keep (buildActionItem L fuel (hdRow sid p n t)) = outT n t
  | .mk task resp due status pl ps none, p, n, fuel => by
    intro hn0 hp hctx hfuel hkeep
    have hsz : sizeT (ActionTreeIn.mk task resp due status pl ps none) = 1 := by
      simp [sizeT]
    cases fuel with
    | zero => omega
    | succ f =>
      have hch : actionChildRows L n =
          actionChildRows (rowsT sid p n (ActionTreeIn.mk task resp due status pl ps none)) n :=
        hctx n (Nat.le_refl n) (by omega)
      rw [childRows_rowsT_self sid _ p n hn0 hp] at hch
      simp only [childrenList, hdRowsF] at hch
      simp only [buildActionItem, hdRow, hch, List.map_nil, List.isEmpty_nil, if_true]
      simp [pruneItem, pruneChildren, outT]
  | .mk task resp due status pl ps (some cs), p, n, fuel => by
    intro hn0 hp hctx hfuel hkeep
    have hsz : sizeT (ActionTreeIn.mk task resp due status pl ps (some cs)) =
        1 + sizeF cs := by simp [sizeT]
    cases fuel with
    | zero =>
      have := sizeT_pos (ActionTreeIn.mk task resp due status pl ps (some cs))
      omega
    | succ f =>
      have hch : actionChildRows L n =
          actionChildRows
            (rowsT sid p n (ActionTreeIn.mk task resp due status pl ps (some cs))) n :=
        hctx n (Nat.le_refl n) (by omega)
      rw [childRows_rowsT_self sid _ p n hn0 hp] at hch
      simp only [childrenList] at hch
      cases cs with
      | nil =>
        simp only [hdRowsF] at hch
        simp only [buildActionItem, hdRow, hch, List.map_nil, List.isEmpty_nil, if_true]
        simp [pruneItem, pruneChildren, outT]
      | cons c rest =>
        have hszcs : sizeF (c :: rest) = sizeT c + sizeF rest := by simp [sizeF]
        have hchildren := buildItems_prune L keep sid (c :: rest) (some n) (n + 1) f
          (by omega)
          (by intro q hq; cases hq; omega)
          (by
            intro k hk1 hk2
            have hk := hctx k (by omega) (by omega)
            rw [hk, rowsT_struct]
            rw [actionChildRows_cons_skip _ _ _ (by
              cases hp2 : p with
              | none => rfl
              | some q =>
                show (!(q == 0) && (q == k)) = false
                have hq := hp q hp2
                have hqk : (q == k) = false := by
                  have : q ≠ k := by omega
                  simpa using this
                simp [hqk])]
            simp only [childrenList])
          (by
            intro c' hc'
            have h1 := sizeT_le_sizeF (c :: rest) c' hc'
            omega)
          (by
            intro k hk1 hk2
            exact hkeep k (by omega) (by omega))
        have hne : hdRowsF sid (some n) (n + 1) (c :: rest) ≠ [] := by
          simp [hdRowsF]
        simp only [buildActionItem, hdRow, hch]
        have hmapne : ((hdRowsF sid (some n) (n + 1) (c :: rest)).map
            (buildActionItem L f)).isEmpty = false := by
          cases hm : hdRowsF sid (some n) (n + 1) (c :: rest) with
          | nil => exact absurd hm hne
          | cons a as => simp [hm]
        rw [hmapne]
        simp only [Bool.false_eq_true, if_false, pruneItem, pruneChildren, hchildren]
        have houtne : outF (n + 1) (c :: rest) ≠ [] := by simp [outF]
        have houtempty : (outF (n + 1) (c :: rest)).isEmpty = false := by
          cases hm : outF (n + 1) (c :: rest) with
          | nil => exact absurd hm houtne
          | cons a as => simp
        simp only [houtempty, Bool.false_eq_true, if_false, outT, List.isEmpty_cons]

/-- Pruning the builder's rendering of a list of generated sibling heads
yields exactly the bulk response forest. -/
theorem buildItems_prune (L : List ActionRow) (keep : Nat → Bool) (sid : Nat) :
    ∀ (ts : List ActionTreeIn) (p : Option Nat) (n fuel : Nat),
      n ≠ 0 →
      (∀ q, p = some q → q < n) →
      (∀ k, n ≤ k → k < n + sizeF ts →
        actionChildRows L k = actionChildRows (rowsF sid p n ts) k) →
      (∀ c ∈ ts, sizeT c ≤ fuel) →
      (∀ k, n ≤ k → k < n + sizeF ts → keep k = true) →
      pruneItems keep ((hdRowsF sid p n ts).map (buildActionItem L fuel)) = outF n ts
  | [], p, n, fuel => by
    intro _ _ _ _ _
    simp [hdRowsF, pruneItems, outF]
  | c :: rest, p, n, fuel => by
    intro hn0 hp hctx hfuel hkeep
    have hsz : sizeF (c :: rest) = sizeT c + sizeF rest := by simp [sizeF]
    have hszc := sizeT_pos c
    have hhd : (buildActionItem L fuel (hdRow sid p n c)).id = n := by
      rw [buildActionItem_id]
      cases c with
      | mk a b d e f g h => rfl
    have hkeephd : keep (buildActionItem L fuel (hdRow sid p n c)).id = true := by
      rw [hhd]
      exact hkeep n (Nat.le_refl n) (by omega)
    have hheadeq := buildItem_prune L keep sid c p n fuel hn0 hp
      (by
        intro k hk1 hk2
        have hk := hctx k hk1 (by omega)
        rw [hk]
        simp only [rowsF]
        rw [actionChildRows_append]
        rw [childRows_rowsF_out sid rest p (n + sizeT c) k (by omega) (by omega)]
        have hpk : (p == some k) = false := by
          cases hp2 : p with
          | none => rfl
          | some q =>
            have hq := hp q hp2
            have : q ≠ k := by omega
            simpa using this
        rw [hpk]
        simp)
      (hfuel c (List.mem_cons_self c rest))
      (fun k hk1 hk2 => hkeep k hk1 (by omega))
    have htaileq := buildItems_prune L keep sid rest p (n + sizeT c) fuel
      (by omega)
      (by intro q hq; have := hp q hq; omega)
      (by
        intro k hk1 hk2
        have hk := hctx k (by omega) (by omega)
        rw [hk]
        simp only [rowsF]
        rw [actionChildRows_append]
        rw [childRows_rowsT_out sid c p n k (by omega) (by omega)]
        have hpk : (p == some k) = false := by
          cases hp2 : p with
          | none => rfl
          | some q =>
            have hq := hp q hp2
            have : q ≠ k := by omega
            simpa using this
        rw [hpk]
        simp)
      (fun c' hc' => hfuel c' (List.mem_cons_of_mem c hc'))
      (fun k hk1 hk2 => hkeep k (by omega) (by omega))
    simp only [hdRowsF, List.map_cons]
    rw [pruneItems_cons_keep keep _ _ hkeephd, hheadeq, htaileq]
    simp [outF]

end


/-- C1: on a well-formed store (serial ids: every existing action id and
parent reference is below the next serial value, rows in ascending id
order) with an existing sujet, `POST /actions/bulk` succeeds, and a
subsequent `GET /actions/tree` for that sujet, restricted to the
server-assigned ids of that request, reproduces exactly the bulk
response's id tree — whose branching shape is exactly the payload's:
same roots, same children counts, same order, same ids. -/
theorem actions_bulk_tree_roundtrip (st : StoreV2) (p : ActionsBulkIn)
    (h0 : 0 < st.nextActionId)
    (hsorted : (st.actions.map ActionRow.id).Pairwise (· < ·))
    (hid : ∀ r ∈ st.actions, r.id < st.nextActionId)
    (hpar : ∀ r ∈ st.actions, ∀ q, r.parent_action_id = some q → q < st.nextActionId)
    (hsuj : (st.sujets.find? (fun s => s.id == p.sujet_id)).isSome) :
    ∃ (out : ActionsBulkOut) (st' : StoreV2),
      create_actions_bulk noFail st p = (Except.ok out, st') ∧
      out.sujet_id = p.sujet_id ∧
      ∃ treeOut : ActionsTreeOut,
        list_actions_tree_by_sujet st' p.sujet_id = Except.ok treeOut ∧
        pruneItems (fun k => decide (st.nextActionId ≤ k)) treeOut.items = out.created ∧
        shapesOfOut out.created = shapesOfIn p.items := by
  have hbulk := create_actions_bulk_noFail st p hsuj
  refine ⟨⟨p.sujet_id, outF st.nextActionId p.items⟩, _, hbulk, rfl, ?_⟩
  have hc : (st.sujets.find? (fun s => s.id == p.sujet_id)).isNone = false := by
    cases h : st.sujets.find? (fun s => s.id == p.sujet_id) with
    | none => rw [h] at hsuj; simp at hsuj
    | some a => rfl
  -- abbreviations
  set n0 := st.nextActionId with hn0def
  set CR := rowsF p.sujet_id none n0 p.items with hCRdef
  set oldF := st.actions.filter (fun r => r.sujet_id == p.sujet_id) with holdFdef
  set L := (st.actions ++ CR).filter (fun r => r.sujet_id == p.sujet_id) with hLdef
  have hCRkeep : CR.filter (fun r => r.sujet_id == p.sujet_id) = CR :=
    List.filter_eq_self.mpr fun r hr => by
      simpa using rowsF_mem_sujet p.sujet_id p.items none n0 r hr
  have hL : L = oldF ++ CR := by
    rw [hLdef, List.filter_append, hCRkeep]
  have hCRids : CR.map ActionRow.id = List.range' n0 (sizeF p.items) :=
    rowsF_ids p.sujet_id p.items none n0
  have hCRlen : CR.length = sizeF p.items := by
    have := congrArg List.length hCRids
    simpa using this
  have hcontains : ∀ k, n0 ≤ k → k < n0 + sizeF p.items →
      (L.map ActionRow.id).contains k = true := by
    intro k hk1 hk2
    have hkCR : k ∈ CR.map ActionRow.id := by
      rw [hCRids]
      exact List.mem_range'.mpr ⟨k - n0, by omega, by omega⟩
    have hkL : k ∈ L.map ActionRow.id := by
      rw [hL, List.map_append]
      exact List.mem_append.mpr (Or.inr hkCR)
    simpa using hkL
  -- the loaded rows and the roots
  have hroots : L.filter (actionIsRoot L) =
      oldF.filter (actionIsRoot L) ++ hdRowsF p.sujet_id none n0 p.items := by
    nth_rewrite 2 [hL]
    rw [List.filter_append]
    congr 1
    have := rowsF_rootFilter p.sujet_id L p.items none n0 h0
      (by intro q hq; cases hq)
      (by intro k hk1 hk2; exact hcontains k hk1 hk2)
    simpa using this
  -- old rows contribute no children under created keys
  have holdchild : ∀ k, n0 ≤ k → actionChildRows oldF k = [] := by
    intro k hk
    refine List.filter_eq_nil_iff.mpr fun r hr => ?_
    have hrmem : r ∈ st.actions := (List.mem_filter.mp hr).1
    cases hq : r.parent_action_id with
    | none => simp
    | some q =>
      have hql := hpar r hrmem q hq
      have : (q == k) = false := by
        have : q ≠ k := by omega
        simpa using this
      simp [this]
  have hctxL : ∀ k, n0 ≤ k → k < n0 + sizeF p.items →
      actionChildRows L k = actionChildRows CR k := by
    intro k hk1 _
    rw [hL, actionChildRows_append, holdchild k hk1]
    simp
  -- prune of the old roots
  have holdrootsdrop :
      pruneItems (fun k => decide (n0 ≤ k))
        ((oldF.filter (actionIsRoot L)).map (buildActionItem L L.length)) = [] := by
    refine pruneItems_drop _ _ fun x hx => ?_
    obtain ⟨r, hr, rfl⟩ := List.mem_map.mp hx
    have hrmem : r ∈ st.actions := (List.mem_filter.mp ((List.mem_filter.mp hr).1)).1
    have := hid r hrmem
    rw [buildActionItem_id]
    simpa using by omega
  -- the created part rebuilds to the response
  have hcreated :
      pruneItems (fun k => decide (n0 ≤ k))
        ((hdRowsF p.sujet_id none n0 p.items).map (buildActionItem L L.length)) =
        outF n0 p.items := by
    refine buildItems_prune L _ p.sujet_id p.items none n0 L.length (by omega)
      (by intro q hq; cases hq) hctxL ?_ ?_
    · intro c hc
      have h1 := sizeT_le_sizeF p.items c hc
      have h2 : CR.length ≤ L.length := by
        rw [hL]
        simp
      omega
    · intro k hk1 _
      simpa using hk1
  -- assemble the read
  refine ⟨⟨p.sujet_id,
    (L.filter (actionIsRoot L)).map (buildActionItem L L.length)⟩, ?_, ?_, ?_⟩
  · simp only [list_actions_tree_by_sujet]
    rw [show ({ st with
        actions := st.actions ++ rowsF p.sujet_id none st.nextActionId p.items,
        nextActionId := st.nextActionId + sizeF p.items } : StoreV2).sujets =
      st.sujets from rfl]
    rw [hc]
    simp only [Bool.false_eq_true, if_false]
  · simp only []
    rw [hroots, List.map_append, pruneItems_append, holdrootsdrop, hcreated]
    simp
  · simp only []
    exact shapesOfOut_outF p.items n0


/-- Witness for C1: the nested fixture payload (A(B(C), D), E) inserted
into the fixture store. -/
theorem actions_bulk_tree_roundtrip_witness :
    0 < fxStoreV2.nextActionId ∧
    (∃ (out : ActionsBulkOut) (st' : StoreV2),
      create_actions_bulk noFail fxStoreV2 fxBulk = (Except.ok out, st') ∧
      out.sujet_id = fxBulk.sujet_id ∧
      ∃ treeOut : ActionsTreeOut,
        list_actions_tree_by_sujet st' fxBulk.sujet_id = Except.ok treeOut ∧
        pruneItems (fun k => decide (fxStoreV2.nextActionId ≤ k)) treeOut.items =
          out.created ∧
        shapesOfOut out.created = shapesOfIn fxBulk.items) :=
  ⟨by decide,
   actions_bulk_tree_roundtrip fxStoreV2 fxBulk (by decide)
     (by simp [fxStoreV2]) (by simp [fxStoreV2]) (by simp [fxStoreV2]) (by decide)⟩


end AssistantConversation
